import Mathlib

/-!
# Verification of the `bitmm-psp-client` signing client

Shallow embedding of `src/bitmm/psp/client.py` (a Python 2 client for the
Bitmymoney payment-service-provider REST API) and proofs about it.

The Python code signs requests and verifies responses with
`hmac.new(key, msg, hashlib.sha256).hexdigest()`.  `hmac`/`hashlib` are
standard-library primitives, so we embed a complete executable SHA-256 and
HMAC-SHA256 over byte lists (`List Nat`, each element `< 256`), with 32-bit
words represented as `Nat` reduced modulo `2 ^ 32`.  Strings stand for Python 2
byte strings; characters are taken modulo 256 (the data the client handles is
ASCII).
-/

set_option maxRecDepth 4000

namespace BitmmPsp

/-- `2 ^ 32`, the word modulus of SHA-256. -/
def M32 : Nat := 4294967296

/-- Truncate to a 32-bit word. -/
def w32 (n : Nat) : Nat := n % M32

/-- Rotate a 32-bit word right by `n` bits. -/
def rotr (x n : Nat) : Nat := w32 ((x >>> n) ||| (x <<< (32 - n)))

/-- SHA-256 `Ch` function. -/
def chF (x y z : Nat) : Nat := (x &&& y) ^^^ ((x ^^^ 4294967295) &&& z)

/-- SHA-256 `Maj` function. -/
def majF (x y z : Nat) : Nat := (x &&& y) ^^^ (x &&& z) ^^^ (y &&& z)

/-- SHA-256 `Σ0`. -/
def bigS0 (x : Nat) : Nat := (rotr x 2) ^^^ (rotr x 13) ^^^ (rotr x 22)

/-- SHA-256 `Σ1`. -/
def bigS1 (x : Nat) : Nat := (rotr x 6) ^^^ (rotr x 11) ^^^ (rotr x 25)

/-- SHA-256 `σ0`. -/
def smallS0 (x : Nat) : Nat := (rotr x 7) ^^^ (rotr x 18) ^^^ (x >>> 3)

/-- SHA-256 `σ1`. -/
def smallS1 (x : Nat) : Nat := (rotr x 17) ^^^ (rotr x 19) ^^^ (x >>> 10)

/-- Big-endian byte rendering of a natural number on `k` bytes. -/
def natToBytesBE : Nat → Nat → List Nat
  | 0, _ => []
  | k + 1, n => natToBytesBE k (n / 256) ++ [n % 256]

/-- Big-endian 32-bit-word rendering of a natural number on `k` words. -/
def natToWordsBE : Nat → Nat → List Nat
  | 0, _ => []
  | k + 1, n => natToWordsBE k (n / 4294967296) ++ [n % 4294967296]

/-- The 64 SHA-256 round constants `428a2f98, 71374491, …, c67178f2` (FIPS
180-4 section 4.2.2), packed big-endian into one numeral; the two test
vectors below certify the table. -/
def K64 : List Nat :=
  natToWordsBE 64
    8399870144517823301722239222130927227141849779511242471197906795369846673996008864786532278482947930035050432913372875699354429524650716672308175015812472005008943341011247634627600705591103756174659437448007297240981034636327441933849465611186184660803773840414514428031635770391245199770927811112653141372483794982516161135727373084047811483050876080270389320947077305721183235613169389468744126235534648516788175255292025668825020963291224099932572215580391753777671218957634024159536228058522778003881673030597872562207069818177476920296259993961459554031943090626293016819766823808480230688357231269177224952050

/-- SHA-256 padding: append `0x80`, zeros up to 56 mod 64, then the 64-bit
big-endian bit length. -/
def padMessage (msg : List Nat) : List Nat :=
  let L := msg.length
  let zeros := (55 + 64 - (L % 64)) % 64
  msg ++ [128] ++ List.replicate zeros 0 ++ natToBytesBE 8 (8 * L)

/-- Group a byte list into big-endian 32-bit words. -/
def wordsOfBytes : List Nat → List Nat
  | b0 :: b1 :: b2 :: b3 :: rest =>
      (((b0 * 256 + b1) * 256 + b2) * 256 + b3) :: wordsOfBytes rest
  | _ => []

/-- Split a word list into blocks of 16 words; `fuel` bounds the recursion. -/
def chunk16 : Nat → List Nat → List (List Nat)
  | 0, _ => []
  | _ + 1, [] => []
  | f + 1, l => l.take 16 :: chunk16 f (l.drop 16)

/-- `nth l i 0`: list indexing with default 0. -/
def nth (l : List Nat) (i : Nat) : Nat := l.getD i 0

/-- Message-schedule extension: extend the 16 block words to 64. -/
def schedule (block : List Nat) : List Nat :=
  (List.range 48).foldl
    (fun w _ =>
      let t := w.length
      w ++ [w32 (smallS1 (nth w (t - 2)) + nth w (t - 7) +
                 smallS0 (nth w (t - 15)) + nth w (t - 16))])
    block

/-- The eight 32-bit words of SHA-256 working state. -/
structure Hash8 where
  a : Nat
  b : Nat
  c : Nat
  d : Nat
  e : Nat
  f : Nat
  g : Nat
  h : Nat

/-- One SHA-256 round. -/
def compressStep (s : Hash8) (kw : Nat × Nat) : Hash8 :=
  let t1 := w32 (s.h + bigS1 s.e + chF s.e s.f s.g + kw.1 + kw.2)
  let t2 := w32 (bigS0 s.a + majF s.a s.b s.c)
  ⟨w32 (t1 + t2), s.a, s.b, s.c, w32 (s.d + t1), s.e, s.f, s.g⟩

/-- Process one 16-word block. -/
def processBlock (h : Hash8) (block : List Nat) : Hash8 :=
  let w := schedule block
  let s := (K64.zip w).foldl compressStep h
  ⟨w32 (h.a + s.a), w32 (h.b + s.b), w32 (h.c + s.c), w32 (h.d + s.d),
   w32 (h.e + s.e), w32 (h.f + s.f), w32 (h.g + s.g), w32 (h.h + s.h)⟩

/-- SHA-256 initial hash state `6a09e667, …, 5be0cd19` (FIPS 180-4 section
5.3.3), packed big-endian into one numeral. -/
def H0 : Hash8 :=
  match natToWordsBE 8
      47962653771679561900652889051773562940742041696833059450490514104358170316057 with
  | [a, b, c, d, e, f, g, h] => ⟨a, b, c, d, e, f, g, h⟩
  | _ => ⟨0, 0, 0, 0, 0, 0, 0, 0⟩

/-- SHA-256 over a byte list, as the final working state. -/
def sha256State (msg : List Nat) : Hash8 :=
  (chunk16 ((wordsOfBytes (padMessage msg)).length + 1)
    (wordsOfBytes (padMessage msg))).foldl processBlock H0

/-- SHA-256 digest as a natural number below `2 ^ 256`. -/
def sha256Nat (msg : List Nat) : Nat :=
  let s := sha256State msg
  ((((((s.a * M32 + s.b) * M32 + s.c) * M32 + s.d) * M32 + s.e) * M32 + s.f)
      * M32 + s.g) * M32 + s.h

/-- SHA-256 digest as its 32 raw bytes. -/
def sha256Bytes (msg : List Nat) : List Nat := natToBytesBE 32 (sha256Nat msg)

/-- One lowercase hexadecimal digit. -/
def hexDigit (m : Nat) : Char :=
  (String.toList "0123456789abcdef").getD m '0'

/-- Fixed-width lowercase hexadecimal rendering of a natural number. -/
def natToHex : Nat → Nat → String
  | 0, _ => ""
  | k + 1, n => natToHex k (n / 16) ++ String.singleton (hexDigit (n % 16))

/-- `hexdigest` of SHA-256: 64 lowercase hex characters. -/
def sha256Hex (msg : List Nat) : String := natToHex 64 (sha256Nat msg)

/-- HMAC-SHA256 (block size 64) digest as a natural number. -/
def hmacNat (key msg : List Nat) : Nat :=
  let k0 := if 64 < key.length then sha256Bytes key else key
  let kpad := k0 ++ List.replicate (64 - k0.length) 0
  let ipadKey := kpad.map (fun b => b ^^^ 0x36)
  let opadKey := kpad.map (fun b => b ^^^ 0x5c)
  sha256Nat (opadKey ++ sha256Bytes (ipadKey ++ msg))

/-- The bytes of a Python 2 byte string; ASCII in all data the client handles. -/
def strBytes (s : String) : List Nat := s.toList.map (fun c => c.toNat % 256)

/-- `hmac.new(key, msg, hashlib.sha256).hexdigest()` on byte strings. -/
def hmacHex (key msg : String) : String := natToHex 64 (hmacNat (strBytes key) (strBytes msg))

/-!
## Python data model

`PyVal` models the Python values the client handles: byte strings, ints,
`None`, JSON objects (dicts), and `decimal.Decimal` values.  A `Decimal` is
kept as its validated literal string (`decimal` is the Python standard
library, not part of this repository; only construction from plain numeric
literals is exercised here).  Dicts are association lists with unique keys.
-/

inductive PyVal where
  | pstr (s : String)
  | pint (n : Int)
  | pnone
  | pdict (l : List (String × PyVal))
  | pdec (d : String)

/-- A Python dict of string keys, as an association list. -/
abbrev PyDict := List (String × PyVal)

/-- Python `str(value)`.  The dict case is never exercised by the client's
signed fields; Python would render the dict's repr there. -/
def pyStr : PyVal → String
  | .pstr s => s
  | .pint n => toString n
  | .pnone => "None"
  | .pdec d => d
  | .pdict _ => "<dict>"

/-- Python truthiness of the values above (`bool(v)`).  The `pdec` case is
never exercised (a nonce is a string or `None` in every claim). -/
def truthy : PyVal → Bool
  | .pstr s => !(s == "")
  | .pint n => !(n == 0)
  | .pnone => false
  | .pdict l => !l.isEmpty
  | .pdec _ => true

/-- The exceptions the client can raise: Python `KeyError`, `TypeError`,
`ValueError`, `decimal.InvalidOperation`, and the library's own
`InvalidSignature` (carrying the received `sign` value) and `ServerError`
(carrying status code, reason phrase, and raw body). -/
inductive PyError where
  | keyError (key : String)
  | typeError
  | valueError (msg : String)
  | invalidOperation
  | invalidSignature (sign : PyVal)
  | serverError (code : Nat) (reason : String) (body : String)

/-- First-match association-list lookup (dict keys are unique). -/
def dictLookup : PyDict → String → Option PyVal
  | [], _ => none
  | (k, v) :: rest, key => if k = key then some v else dictLookup rest key

/-- Python `dict.pop(key, default)`'s removal effect. -/
def dictRemove (d : PyDict) (key : String) : PyDict :=
  d.filter (fun p => !(p.1 == key))

/-- Python `d[key] = v`: replace in place, or append when the key is new. -/
def dictSet (d : PyDict) (key : String) (v : PyVal) : PyDict :=
  if (dictLookup d key).isSome then
    d.map (fun p => if p.1 = key then (key, v) else p)
  else d ++ [(key, v)]

/-- `data[key]`, raising `KeyError` when absent. -/
def lookupE (d : PyDict) (key : String) : Except PyError PyVal :=
  match dictLookup d key with
  | some v => .ok v
  | none => .error (.keyError key)

/-- A string-typed value, as required by `''.join`; `TypeError` otherwise. -/
def strVal : PyVal → Except PyError String
  | .pstr s => .ok s
  | _ => .error .typeError

/-- Python `computed_str != value` comparison used on the `sign` field: equal
only to an equal string (comparison against a non-string is unequal). -/
def pyEqStr (s : String) : PyVal → Bool
  | .pstr t => s == t
  | _ => false

/-- The loop `for field in fields: signvalues.append(str(data[field]))`:
stringified values of the fields in order, `KeyError` at the first miss. -/
def lookupStrs (d : PyDict) : List String → Except PyError (List String)
  | [] => .ok []
  | f :: rest =>
    match dictLookup d f with
    | none => .error (.keyError f)
    | some v => (lookupStrs d rest).map (fun l => pyStr v :: l)

/-!
## The client's functions (`src/bitmm/psp/client.py`)
-/

/-- `PSPClient._call`'s request construction (lines 100-111): copy the kwargs;
when `sign_fields` is non-empty, collect `str(data[field])` for each signed
field in order, then `data.pop('nonce', '') or ''` (the empty string when the
nonce is absent or falsy; a truthy non-string would fail `''.join` with
`TypeError`), HMAC-SHA256 the concatenation with the API key, and store the
hex digest under `sign`.  Returns the parameter mapping that is transmitted. -/
def buildSignedParams (apikey : String) (signFields : List String)
    (kwargs : PyDict) : Except PyError PyDict :=
  if signFields.isEmpty then .ok kwargs
  else
    match lookupStrs kwargs signFields with
    | .error e => .error e
    | .ok vals =>
      match (if truthy ((dictLookup kwargs "nonce").getD (.pstr "")) then
          strVal ((dictLookup kwargs "nonce").getD (.pstr "")) else .ok "") with
      | .error e => .error e
      | .ok nonceStr =>
        .ok (dictSet (dictRemove kwargs "nonce") "sign"
          (.pstr (hmacHex apikey (String.join vals ++ nonceStr))))

/-- The HTTP reply the mocked server produces for the single request an
operation makes: status code, reason phrase, raw body text, and the result of
`json.loads` on that body (`json` is the Python standard library, not part of
this repository; a parse failure is a `ValueError` message). -/
structure ServerReply where
  statusCode : Nat
  reason : String
  text : String
  json : Except String PyVal

/-- `PSPClient._call` (lines 100-115): build the signed parameters, issue the
request, raise `ServerError(status, reason, body)` for a status outside
`[200, 400)`, and otherwise return the JSON-decoded body. -/
def pspCall (apikey : String) (_path : String) (_method : String)
    (signFields : List String) (kwargs : PyDict) (reply : ServerReply) :
    Except PyError PyVal :=
  match buildSignedParams apikey signFields kwargs with
  | .error e => .error e
  | .ok _params =>
    if reply.statusCode < 200 || 400 ≤ reply.statusCode then
      .error (.serverError reply.statusCode reply.reason reply.text)
    else
      reply.json.mapError PyError.valueError

/-- `PSPClient._verify_signature` (lines 117-125): stringify the designated
fields of the response in order (`KeyError` at a missing field), append
`data.get('nonce', '')` (no `or ''` here, so a non-string nonce value fails
`''.join` with `TypeError`), recompute the HMAC hex digest, and compare it to
`data['sign']` (`KeyError` when absent), raising `InvalidSignature` with the
stored value on mismatch. -/
def verifySignature (apikey : String) (data : PyDict) (fields : List String) :
    Except PyError Unit :=
  match lookupStrs data fields with
  | .error e => .error e
  | .ok vals =>
    match strVal ((dictLookup data "nonce").getD (.pstr "")) with
    | .error e => .error e
    | .ok nonceStr =>
      match dictLookup data "sign" with
      | none => .error (.keyError "sign")
      | some stored =>
        if pyEqStr (hmacHex apikey (String.join vals ++ nonceStr)) stored
        then .ok () else .error (.invalidSignature stored)

/-- The language of `re.match('^\d+([.]\d+)?$', s)` in Python: one or more
ASCII digits, optionally a dot and one or more digits, optionally followed by
a single trailing newline (Python's `$` also matches just before a newline at
the end of the string). -/
def skipDigits : List Char → List Char
  | [] => []
  | c :: rest => if c.isDigit then skipDigits rest else c :: rest

/-- After the dot: `\d+` must follow, and is consumed. -/
def fracPart : List Char → Option (List Char)
  | [] => none
  | c3 :: r3 => if c3.isDigit then some (skipDigits (c3 :: r3)) else none

/-- The optional `([.]\d+)?` group applied to what follows `\d+`. -/
def dotPart : List Char → Option (List Char)
  | [] => some []
  | c2 :: r => if c2 = '.' then fracPart r else some (c2 :: r)

/-- Consume `\d+([.]\d+)?` off the front of the characters: the remaining
suffix, or `none` when the head does not match. -/
def amountRest (cs : List Char) : Option (List Char) :=
  match cs with
  | [] => none
  | c :: _ => if !c.isDigit then none else dotPart (skipDigits cs)

/-- Whether `re.match('^\d+([.]\d+)?$', s)` succeeds in Python: the pattern
must consume everything up to the end, or up to a single newline at the end
(Python's `$` also matches just before a trailing newline). -/
def pyAmountMatch (s : String) : Bool :=
  amountRest s.data == some [] || amountRest s.data == some ['\n']

/-- The specification's reading of the pattern `^\d+(\.\d+)?$`: a full match
of the whole string, with no newline tolerance.  This is the spec-side
definition the amount claims compare the code against. -/
def specAmountPattern (s : String) : Bool :=
  amountRest s.data == some []

/-- Escaping of one character in the Python `repr` of a byte string, for the
printable-ASCII and common escape cases the error message exercises. -/
def pyEscape (c : Char) : String :=
  if c = '\\' then "\\\\"
  else if c = '\'' then "\\'"
  else if c = '\n' then "\\n"
  else if c = '\r' then "\\r"
  else if c = '\t' then "\\t"
  else String.singleton c

/-- Python `repr` of a byte string (simplified to single-quote rendering with
the escapes of `pyEscape`; this is the `%r` of the error message below). -/
def pyRepr (s : String) : String :=
  "'" ++ String.join (s.data.map pyEscape) ++ "'"

/-- `PSPClient._normalize_amount` (lines 127-134): `str(amount)`, validated
against the decimal pattern, returned unchanged; `ValueError` naming the
rejected input otherwise. -/
def normalizeAmount (amount : PyVal) : Except PyError String :=
  let s := pyStr amount
  if pyAmountMatch s then .ok s
  else .error (.valueError
    ("could not parse amount " ++ pyRepr s ++ ", must be a positive decimal"))

/-- Simplified acceptor for `decimal.Decimal` literals (sign, digits, at most
one dot, at least one digit; the exponent and special forms are never
exercised by this client's data). -/
def isDecimalLiteral (s : String) : Bool :=
  let cs := match s.data with
    | '+' :: r => r
    | '-' :: r => r
    | r => r
  !cs.isEmpty && cs.all (fun c => c.isDigit || c == '.') &&
    decide (cs.count '.' ≤ 1) && cs.any (fun c => c.isDigit)

/-- `decimal.Decimal(value)` (Python standard library, not part of this
repository): keep the validated literal; `InvalidOperation` on an unparsable
string, `TypeError` on `None` or a dict. -/
def pyDecimal : PyVal → Except PyError String
  | .pstr s => if isDecimalLiteral s then .ok s else .error .invalidOperation
  | .pint n => .ok (toString n)
  | .pdec d => .ok d
  | _ => .error .typeError

/-- `response.json()` must be a dict before it can be indexed by field name;
anything else fails with a `TypeError` at the first field access. -/
def asDict : PyVal → Except PyError PyDict
  | .pdict l => .ok l
  | _ => .error .typeError

/-- The signed-field set of `PSPClient.start`'s outgoing request (line 63). -/
def startSignFields : List String :=
  ["amount_eur", "description", "url_success", "merchant_id"]

/-- The response fields `PSPClient.start` verifies (line 71). -/
def startVerifyFields : List String :=
  ["url_pay", "btc_address", "url_qrcode", "url_status"]

/-- The response fields `PSPClient.transaction_status` verifies (line 90). -/
def txVerifyFields : List String :=
  ["status", "amount_btc", "amount_received", "txid"]

/-- The keyword parameters `PSPClient.start` passes to `_call` (lines 64-69),
in source order. -/
def startKwargs (amount description url_success callback_success merchant_id
    order_id url_failure callback_failure nonce : PyVal) : PyDict :=
  [("amount_eur", amount), ("description", description),
   ("url_success", url_success), ("callback_success", callback_success),
   ("merchant_id", merchant_id), ("order_id", order_id),
   ("url_failure", url_failure), ("callback_failure", callback_failure),
   ("nonce", nonce)]

/-- `PSPClient.start` (lines 41-73). -/
def start (apikey : String) (amount_eur description url_success
    callback_success merchant_id order_id url_failure callback_failure
    nonce : PyVal) (reply : ServerReply) : Except PyError PyVal :=
  match normalizeAmount amount_eur with
  | .error e => .error e
  | .ok amount =>
    match pspCall apikey "/start/" "GET" startSignFields
        (startKwargs (.pstr amount) description url_success callback_success
          merchant_id order_id url_failure callback_failure nonce) reply with
    | .error e => .error e
    | .ok data =>
      match asDict data with
      | .error e => .error e
      | .ok d =>
        match verifySignature apikey d startVerifyFields with
        | .error e => .error e
        | .ok _ => .ok data

/-- `PSPClient.price_btc` (lines 75-82). -/
def price_btc (apikey : String) (amount_eur : PyVal) (decimals : Int)
    (reply : ServerReply) : Except PyError PyVal :=
  match normalizeAmount amount_eur with
  | .error e => .error e
  | .ok amount =>
    if decimals < 0 then
      .error (.valueError "decimals must be a positive integer")
    else
      match pspCall apikey "/price_btc/" "GET" []
          [("amount_eur", .pstr amount), ("decimals", .pint decimals)] reply with
      | .error e => .error e
      | .ok v =>
        match pyDecimal v with
        | .error e => .error e
        | .ok d => .ok (PyVal.pdec d)

/-- `PSPClient.transaction_status` (lines 84-98).  Note the dead store in the
source: it builds `sigdata = data.copy(); sigdata['nonce'] = nonce` (that is,
`dictSet d "nonce" nonce`) and then calls `_verify_signature(data, ...)` on
`data`, not `sigdata` — the caller-supplied `nonce` argument never reaches the
verification and has no effect at all, so the dead binding is omitted here. -/
def transaction_status (apikey : String) (txid : PyVal) (_nonce : PyVal)
    (reply : ServerReply) : Except PyError PyVal :=
  match pspCall apikey ("/tx/" ++ pyStr txid ++ "/status/") "GET" [] [] reply with
  | .error e => .error e
  | .ok data =>
    match asDict data with
    | .error e => .error e
    | .ok d =>
      match verifySignature apikey d txVerifyFields with
      | .error e => .error e
      | .ok _ =>
        match lookupE d "status" with
        | .error e => .error e
        | .ok status =>
          match lookupE d "amount_btc" with
          | .error e => .error e
          | .ok ab =>
            match pyDecimal ab with
            | .error e => .error e
            | .ok abd =>
              match lookupE d "amount_received" with
              | .error e => .error e
              | .ok ar =>
                match pyDecimal ar with
                | .error e => .error e
                | .ok ard =>
                  match lookupE d "txid" with
                  | .error e => .error e
                  | .ok tx =>
                    match lookupE d "sign" with
                    | .error e => .error e
                    | .ok sg =>
                      .ok (PyVal.pdict
                        [("status", status), ("amount_btc", .pdec abd),
                         ("amount_received", .pdec ard), ("txid", tx),
                         ("sign", sg)])

/-- A nonce argument as Python receives it: the default `None` or a string. -/
def nonceVal : Option String → PyVal
  | none => .pnone
  | some s => .pstr s

/-- The specification's signature construction, following its words: the
lowercase hexadecimal HMAC-SHA256, keyed by the API key, of the concatenation
with no delimiter of the stringified signed-field values in declared order
followed by the nonce string (the empty string when the nonce is absent). -/
def spec_signature (key : String) (vals : List String)
    (nonce : Option String) : String :=
  hmacHex key (String.join vals ++ nonce.getD "")

/-- A correctly signed transaction-status response (the test suite's data,
signed per the documented construction with no nonce). -/
def txOkData : PyDict :=
  [("status", .pstr "SUCCESS"), ("amount_btc", .pstr "0.1"),
   ("amount_received", .pstr "0.1"), ("txid", .pstr "123456"),
   ("sign", .pstr
     (spec_signature "k" ["SUCCESS", "0.1", "0.1", "123456"] none))]

/-- The same response with a wrong `sign` value. -/
def txBadSignData : PyDict :=
  [("status", .pstr "SUCCESS"), ("amount_btc", .pstr "0.1"),
   ("amount_received", .pstr "0.1"), ("txid", .pstr "123456"),
   ("sign", .pstr "zz")]

/-- A transaction-status response signed per the protocol with the caller's
nonce `"abc"` folded into the digest (and no nonce key of its own). -/
def nonceMismatchData : PyDict :=
  [("status", .pstr "S"), ("amount_btc", .pstr "1"),
   ("amount_received", .pstr "1"), ("txid", .pstr "t"),
   ("sign", .pstr (spec_signature "k" ["S", "1", "1", "t"] (some "abc")))]

/-- All eight words of a SHA-256 working state are 32-bit values. -/
def Bounded8 (s : Hash8) : Prop :=
  s.a < M32 ∧ s.b < M32 ∧ s.c < M32 ∧ s.d < M32 ∧
  s.e < M32 ∧ s.f < M32 ∧ s.g < M32 ∧ s.h < M32

/-- `n` letters `a`: an injective family of field values, used to exhibit
HMAC collisions by pigeonhole. -/
def repA (n : Nat) : String := String.mk (List.replicate n 'a')

/-- A `start` response whose `url_status` is `repA n` but whose `sign` was
computed when `url_status` was `repA m`: the altered-field scenario. -/
def alteredStartData (m n : Nat) : PyDict :=
  [("url_pay", .pstr "p"), ("btc_address", .pstr "b"),
   ("url_qrcode", .pstr "q"), ("url_status", .pstr (repA n)),
   ("sign", .pstr (hmacHex "k" (String.join ["p", "b", "q", repA m] ++ "")))]

/-- SHA-256 test vector: the empty message. -/
theorem sha256_vector_empty :
    sha256Hex [] = "e3b0c44298fc1c149afbf4c8996fb92427ae41e4649b934ca495991b7852b855" := by
  decide

/-- SHA-256 test vector: `"abc"`. -/
theorem sha256_vector_abc :
    sha256Hex (strBytes "abc") =
      "ba7816bf8f01cfea414140de5dae2223b00361a396177a9cb410ff61f20015ad" := by
  decide

/-- HMAC-SHA256 test vector (RFC 4231 test case 2: key `"Jefe"`, message
`"what do ya want for nothing?"`). -/
theorem hmac_vector_rfc4231_2 :
    hmacHex "Jefe" "what do ya want for nothing?" =
      "5bdcc146bf60754e6a042426089575c75a003f089d2739839dec58b964ec3843" := by
  decide

/-!
## Digest bounds and the existence of HMAC collisions

The digest is a 256-bit quantity, so the map from field values to digests is
not injective: infinitely many inputs, finitely many digests.
-/

theorem M32_pos : 0 < M32 := by norm_num [M32]

theorem w32_lt (n : Nat) : w32 n < M32 := Nat.mod_lt _ M32_pos

theorem processBlock_bounded (h : Hash8) (b : List Nat) :
    Bounded8 (processBlock h b) :=
  ⟨w32_lt _, w32_lt _, w32_lt _, w32_lt _, w32_lt _, w32_lt _, w32_lt _, w32_lt _⟩

theorem foldl_processBlock_bounded (l : List (List Nat)) :
    ∀ h : Hash8, Bounded8 h → Bounded8 (l.foldl processBlock h) := by
  induction l with
  | nil => intro h hb; exact hb
  | cons b t ih =>
    intro h _
    rw [List.foldl_cons]
    exact ih _ (processBlock_bounded h b)

theorem H0_bounded : Bounded8 H0 := by
  unfold Bounded8
  decide

theorem sha256State_bounded (msg : List Nat) : Bounded8 (sha256State msg) :=
  foldl_processBlock_bounded
    (chunk16 ((wordsOfBytes (padMessage msg)).length + 1)
      (wordsOfBytes (padMessage msg))) H0 H0_bounded

theorem sha256Nat_lt (msg : List Nat) : sha256Nat msg < 2 ^ 256 := by
  obtain ⟨h1, h2, h3, h4, h5, h6, h7, h8⟩ := sha256State_bounded msg
  have e : sha256Nat msg =
      (((((((sha256State msg).a * M32 + (sha256State msg).b) * M32 +
        (sha256State msg).c) * M32 + (sha256State msg).d) * M32 +
        (sha256State msg).e) * M32 + (sha256State msg).f) * M32 +
        (sha256State msg).g) * M32 + (sha256State msg).h := rfl
  rw [e]
  simp only [M32] at *
  have h256 : (2 : Nat) ^ 256 =
      115792089237316195423570985008687907853269984665640564039457584007913129639936 := by
    norm_num
  rw [h256]
  omega

theorem hmacNat_lt (key msg : List Nat) : hmacNat key msg < 2 ^ 256 := by
  unfold hmacNat
  exact sha256Nat_lt _

theorem repA_injective : Function.Injective repA := by
  intro m n h
  have hl := congrArg String.length h
  simpa [repA, String.length] using hl

/-- Pigeonhole: for any family of messages indexed by the naturals, two
distinct indices produce the same HMAC-SHA256 hex digest. -/
theorem hmacHex_exists_collision (key : String) (msg : Nat → String) :
    ∃ m n : Nat, m ≠ n ∧ hmacHex key (msg m) = hmacHex key (msg n) := by
  obtain ⟨m, n, hmn, h⟩ := Finite.exists_ne_map_eq_of_infinite
    (fun i : Nat => (⟨hmacNat (strBytes key) (strBytes (msg i)),
      hmacNat_lt _ _⟩ : Fin (2 ^ 256)))
  refine ⟨m, n, hmn, ?_⟩
  have hnat : hmacNat (strBytes key) (strBytes (msg m)) =
      hmacNat (strBytes key) (strBytes (msg n)) := congrArg Fin.val h
  unfold hmacHex
  rw [hnat]

/-!
## String lemmas
-/

theorem string_append_empty (s : String) : s ++ "" = s := by
  apply String.ext
  simp [String.data_append]

theorem string_empty_append (s : String) : "" ++ s = s := by
  apply String.ext
  simp [String.data_append]

theorem string_append_assoc (a b c : String) : a ++ b ++ c = a ++ (b ++ c) := by
  apply String.ext
  simp [String.data_append]

theorem string_append_left_cancel {a b c : String} (h : a ++ b = a ++ c) :
    b = c := by
  apply String.ext
  have hd := congrArg String.data h
  simp only [String.data_append] at hd
  exact List.append_cancel_left hd

theorem string_append_right_cancel {a b c : String} (h : a ++ c = b ++ c) :
    a = b := by
  apply String.ext
  have hd := congrArg String.data h
  simp only [String.data_append] at hd
  exact List.append_cancel_right hd

theorem string_foldl_append (l : List String) :
    ∀ s : String, l.foldl (· ++ ·) s = s ++ String.join l := by
  induction l with
  | nil => intro s; exact (string_append_empty s).symm
  | cons a t ih =>
    intro s
    have h1 : String.join (a :: t) = a ++ String.join t := by
      show List.foldl (· ++ ·) ("" ++ a) t = _
      rw [string_empty_append, ih a]
    show List.foldl (· ++ ·) (s ++ a) t = _
    rw [ih (s ++ a), h1, string_append_assoc]

theorem string_join_cons (a : String) (t : List String) :
    String.join (a :: t) = a ++ String.join t := by
  show List.foldl (· ++ ·) ("" ++ a) t = _
  rw [string_empty_append, string_foldl_append t a]

theorem string_join_append (l1 l2 : List String) :
    String.join (l1 ++ l2) = String.join l1 ++ String.join l2 := by
  induction l1 with
  | nil => simp [String.join, string_empty_append]
  | cons a t ih =>
    rw [List.cons_append, string_join_cons, ih, string_join_cons,
      string_append_assoc]

/-- Changing a single element of the joined value list changes the whole MAC
input: free-monoid cancellation on both sides. -/
theorem join_single_change_ne (pre post : List String) (x x' : String)
    (nonce : String) (h : x' ≠ x) :
    String.join (pre ++ x' :: post) ++ nonce ≠
      String.join (pre ++ x :: post) ++ nonce := by
  intro hc
  have e : ∀ y : String, String.join (pre ++ y :: post) ++ nonce =
      String.join pre ++ (y ++ (String.join post ++ nonce)) := by
    intro y
    rw [string_join_append, string_join_cons, string_append_assoc,
      string_append_assoc]
  rw [e, e] at hc
  exact h (string_append_right_cancel (string_append_left_cancel hc))

/-!
## Association-list (Python dict) lemmas
-/

theorem dictLookup_cons (a : String) (b : PyVal) (t : PyDict) (k : String) :
    dictLookup ((a, b) :: t) k = if a = k then some b else dictLookup t k := rfl

theorem dictLookup_append (d rest : PyDict) (k : String) :
    dictLookup (d ++ rest) k =
      ((dictLookup d k).elim (dictLookup rest k) some) := by
  induction d with
  | nil => simp [dictLookup]
  | cons p t ih =>
    obtain ⟨a, b⟩ := p
    by_cases hak : a = k
    · subst hak
      simp [dictLookup_cons]
    · simp [dictLookup_cons, hak, ih]

theorem dictLookup_map_set (d : PyDict) (k : String) (v : PyVal) :
    dictLookup (d.map fun p => if p.1 = k then (k, v) else p) k =
      (dictLookup d k).map fun _ => v := by
  induction d with
  | nil => simp [dictLookup]
  | cons p t ih =>
    obtain ⟨a, b⟩ := p
    by_cases hak : a = k
    · subst hak
      simp [dictLookup_cons]
    · simp [dictLookup_cons, hak, ih]

theorem dictLookup_map_set_other (d : PyDict) (k k' : String) (v : PyVal)
    (h : k' ≠ k) :
    dictLookup (d.map fun p => if p.1 = k then (k, v) else p) k' =
      dictLookup d k' := by
  induction d with
  | nil => simp [dictLookup]
  | cons p t ih =>
    obtain ⟨a, b⟩ := p
    by_cases hak : a = k
    · subst hak
      simp [dictLookup_cons, Ne.symm h, ih]
    · by_cases hak' : a = k'
      · subst hak'
        simp [dictLookup_cons, hak, ih]
      · simp [dictLookup_cons, hak, hak', ih]

theorem dictLookup_set_self (d : PyDict) (k : String) (v : PyVal) :
    dictLookup (dictSet d k v) k = some v := by
  unfold dictSet
  by_cases h : (dictLookup d k).isSome
  · obtain ⟨w, hw⟩ := Option.isSome_iff_exists.mp h
    simp [h, dictLookup_map_set, hw]
  · have hnone : dictLookup d k = none := Option.not_isSome_iff_eq_none.mp h
    simp [h, dictLookup_append, hnone, dictLookup_cons]

theorem dictLookup_set_other (d : PyDict) (k k' : String) (v : PyVal)
    (h : k' ≠ k) :
    dictLookup (dictSet d k v) k' = dictLookup d k' := by
  unfold dictSet
  by_cases hs : (dictLookup d k).isSome
  · simp [hs, dictLookup_map_set_other d k k' v h]
  · have h1 : dictLookup [(k, v)] k' = none := by
      simp [dictLookup_cons, Ne.symm h, dictLookup]
    simp only [hs, if_false, Bool.false_eq_true, dictLookup_append, h1]
    cases dictLookup d k' <;> simp

theorem dictLookup_remove_self (d : PyDict) (k : String) :
    dictLookup (dictRemove d k) k = none := by
  induction d with
  | nil => rfl
  | cons p t ih =>
    obtain ⟨a, b⟩ := p
    by_cases hak : a = k
    · subst hak
      simpa [dictRemove, dictLookup_cons] using ih
    · have : dictRemove ((a, b) :: t) k = (a, b) :: dictRemove t k := by
        simp [dictRemove, hak]
      rw [this, dictLookup_cons, if_neg hak]
      exact ih

theorem dictLookup_remove_other (d : PyDict) (k k' : String) (h : k' ≠ k) :
    dictLookup (dictRemove d k) k' = dictLookup d k' := by
  induction d with
  | nil => rfl
  | cons p t ih =>
    obtain ⟨a, b⟩ := p
    by_cases hak : a = k
    · subst hak
      have e : dictRemove ((a, b) :: t) a = dictRemove t a := by
        simp [dictRemove]
      rw [e, ih, dictLookup_cons, if_neg (Ne.symm h)]
    · have e : dictRemove ((a, b) :: t) k = (a, b) :: dictRemove t k := by
        simp [dictRemove, hak]
      rw [e, dictLookup_cons, dictLookup_cons, ih]

/-!
## `lookupStrs` lemmas and error-shape inversions
-/

theorem lookupStrs_cons (d : PyDict) (f : String) (t : List String) :
    lookupStrs d (f :: t) =
      match dictLookup d f with
      | none => .error (.keyError f)
      | some v => (lookupStrs d t).map (fun l => pyStr v :: l) := rfl

theorem lookupStrs_ok_of_isSome (d : PyDict) :
    ∀ fs : List String, (∀ f ∈ fs, (dictLookup d f).isSome) →
      ∃ vals, lookupStrs d fs = .ok vals := by
  intro fs
  induction fs with
  | nil => intro _; exact ⟨[], rfl⟩
  | cons f t ih =>
    intro hall
    obtain ⟨v, hv⟩ := Option.isSome_iff_exists.mp (hall f (List.mem_cons_self f t))
    obtain ⟨vs, hvs⟩ := ih (fun g hg => hall g (List.mem_cons_of_mem f hg))
    exact ⟨pyStr v :: vs, by simp [lookupStrs_cons, hv, hvs, Except.map]⟩

theorem lookupStrs_isSome_of_ok (d : PyDict) :
    ∀ (fs : List String) (vals : List String), lookupStrs d fs = .ok vals →
      ∀ f ∈ fs, (dictLookup d f).isSome := by
  intro fs
  induction fs with
  | nil => intro vals _ f hf; cases hf
  | cons g t ih =>
    intro vals h f hf
    rw [lookupStrs_cons] at h
    cases hg : dictLookup d g with
    | none => rw [hg] at h; simp at h
    | some v =>
      rw [hg] at h
      cases ht : lookupStrs d t with
      | error e => rw [ht] at h; simp [Except.map] at h
      | ok vs =>
        rcases List.mem_cons.mp hf with rfl | hmem
        · simp [hg]
        · exact ih vs ht f hmem

theorem lookupStrs_error_keyError (d : PyDict) :
    ∀ (fs : List String) (e : PyError), lookupStrs d fs = .error e →
      ∃ g, e = .keyError g ∧ dictLookup d g = none := by
  intro fs
  induction fs with
  | nil => intro e h; simp [lookupStrs] at h
  | cons g t ih =>
    intro e h
    rw [lookupStrs_cons] at h
    cases hg : dictLookup d g with
    | none =>
      rw [hg] at h
      refine ⟨g, ?_, hg⟩
      simpa using h.symm
    | some v =>
      rw [hg] at h
      cases ht : lookupStrs d t with
      | error e2 =>
        rw [ht] at h
        obtain ⟨g', he, hl⟩ := ih e2 ht
        have h' : e2 = e := by simpa [Except.map] using h
        exact ⟨g', h' ▸ he, hl⟩
      | ok vs => rw [ht] at h; simp [Except.map] at h

theorem lookupStrs_error_of_missing (d : PyDict) :
    ∀ (fs : List String) (f : String), f ∈ fs → dictLookup d f = none →
      ∃ g, lookupStrs d fs = .error (.keyError g) := by
  intro fs
  induction fs with
  | nil => intro f hf; cases hf
  | cons g t ih =>
    intro f hf hnone
    cases hg : dictLookup d g with
    | none => exact ⟨g, by rw [lookupStrs_cons, hg]⟩
    | some v =>
      rcases List.mem_cons.mp hf with rfl | hmem
      · rw [hg] at hnone; simp at hnone
      · obtain ⟨g', hg'⟩ := ih f hmem hnone
        exact ⟨g', by rw [lookupStrs_cons, hg, hg']; rfl⟩

theorem strVal_error (v : PyVal) (e : PyError) (h : strVal v = .error e) :
    e = .typeError := by
  cases v <;> simp [strVal] at h <;> exact h.symm

/-- The nonce the verifier reads from the response: a string field gives that
string, an absent field gives the empty string. -/
theorem strVal_nonce (nonce : Option String) :
    strVal ((Option.map PyVal.pstr nonce).getD (.pstr "")) =
      .ok (nonce.getD "") := by
  cases nonce <;> rfl

/-!
## The two signing functions compute the specification's digest
-/

/-- `_verify_signature`, reduced on a response whose designated fields read
back as `vals` and whose nonce field is absent or the string `nonce`:
it compares `data['sign']` against the specification's digest. -/
theorem verify_eq (key : String) (data : PyDict) (fields : List String)
    (vals : List String) (nonce : Option String) (stored : PyVal)
    (hv : lookupStrs data fields = .ok vals)
    (hn : dictLookup data "nonce" = Option.map PyVal.pstr nonce)
    (hs : dictLookup data "sign" = some stored) :
    verifySignature key data fields =
      (if pyEqStr (spec_signature key vals nonce) stored then .ok ()
       else .error (.invalidSignature stored)) := by
  unfold verifySignature
  rw [hv, hn, strVal_nonce, hs]
  rfl

theorem verify_ok (key : String) (data : PyDict) (fields : List String)
    (vals : List String) (nonce : Option String)
    (hv : lookupStrs data fields = .ok vals)
    (hn : dictLookup data "nonce" = Option.map PyVal.pstr nonce)
    (hs : dictLookup data "sign" =
      some (.pstr (spec_signature key vals nonce))) :
    verifySignature key data fields = .ok () := by
  rw [verify_eq key data fields vals nonce _ hv hn hs]
  simp [pyEqStr]

theorem verify_fail (key : String) (data : PyDict) (fields : List String)
    (vals : List String) (nonce : Option String) (stored : PyVal)
    (hv : lookupStrs data fields = .ok vals)
    (hn : dictLookup data "nonce" = Option.map PyVal.pstr nonce)
    (hs : dictLookup data "sign" = some stored)
    (hne : pyEqStr (spec_signature key vals nonce) stored = false) :
    verifySignature key data fields = .error (.invalidSignature stored) := by
  rw [verify_eq key data fields vals nonce _ hv hn hs, hne]
  rfl

/-- `_call`'s parameter construction, reduced under the same hypotheses: the
transmitted mapping is the kwargs with the nonce popped and the
specification's digest stored under `sign`. -/
theorem buildSignedParams_eq (key : String) (sf : List String)
    (kwargs : PyDict) (vals : List String) (nonce : Option String)
    (hsf : sf ≠ [])
    (hv : lookupStrs kwargs sf = .ok vals)
    (hn : dictLookup kwargs "nonce" = Option.map PyVal.pstr nonce ∨
      (dictLookup kwargs "nonce" = some .pnone ∧ nonce = none)) :
    buildSignedParams key sf kwargs =
      .ok (dictSet (dictRemove kwargs "nonce") "sign"
        (.pstr (spec_signature key vals nonce))) := by
  unfold buildSignedParams
  have hempty : sf.isEmpty = false := by
    cases sf with
    | nil => exact absurd rfl hsf
    | cons a t => rfl
  rcases hn with hn | ⟨hn, hnone⟩
  · rw [hempty, hv, hn]
    cases nonce with
    | none => rfl
    | some s =>
      by_cases hs : s = ""
      · subst hs; rfl
      · have ht : truthy ((Option.map PyVal.pstr (some s)).getD (.pstr "")) =
            true := by
          simp [truthy, hs]
        simp only [ht]
        rfl
  · subst hnone
    rw [hempty, hv, hn]
    rfl

/-!
## The amount pattern: Python `$` semantics versus the literal pattern
-/

theorem skipDigits_suffix : ∀ l : List Char, skipDigits l <:+ l := by
  intro l
  induction l with
  | nil => exact List.suffix_refl []
  | cons c t ih =>
    by_cases hc : c.isDigit
    · have e : skipDigits (c :: t) = skipDigits t := by simp [skipDigits, hc]
      rw [e]
      exact ih.trans (List.suffix_cons c t)
    · have e : skipDigits (c :: t) = c :: t := by simp [skipDigits, hc]
      rw [e]

theorem amountRest_suffix (cs r : List Char) (h : amountRest cs = some r) :
    r <:+ cs := by
  unfold amountRest at h
  cases cs with
  | nil => simp at h
  | cons c t =>
    by_cases hc : c.isDigit
    · simp only [hc, Bool.not_true, if_false, Bool.false_eq_true] at h
      cases hsd : skipDigits (c :: t) with
      | nil =>
        rw [hsd] at h
        have : r = [] := by simpa [dotPart] using h.symm
        subst this
        exact List.nil_suffix
      | cons c2 r2 =>
        rw [hsd] at h
        simp only [dotPart] at h
        by_cases hdot : c2 = '.'
        · rw [if_pos hdot] at h
          cases r2 with
          | nil => simp [fracPart] at h
          | cons c3 t3 =>
            simp only [fracPart] at h
            by_cases h3 : c3.isDigit
            · rw [if_pos h3] at h
              have hr : r = skipDigits (c3 :: t3) := by simpa using h.symm
              subst hr
              have s1 : skipDigits (c3 :: t3) <:+ c3 :: t3 := skipDigits_suffix _
              have s2 : (c3 :: t3) <:+ c2 :: c3 :: t3 := List.suffix_cons _ _
              have s3 : (c2 :: c3 :: t3) <:+ c :: t :=
                hsd ▸ skipDigits_suffix (c :: t)
              exact (s1.trans s2).trans s3
            · rw [if_neg h3] at h
              simp at h
        · rw [if_neg hdot] at h
          have hr : r = c2 :: r2 := by simpa using h.symm
          subst hr
          exact hsd ▸ skipDigits_suffix (c :: t)
    · simp [hc] at h

theorem pyAmountMatch_of_spec (s : String) (h : specAmountPattern s = true) :
    pyAmountMatch s = true := by
  unfold specAmountPattern at h
  unfold pyAmountMatch
  rw [h]
  rfl

/-- The only strings Python's `$` admits beyond the literal pattern end in a
newline. -/
theorem pyAmountMatch_cases (s : String) (h : pyAmountMatch s = true) :
    specAmountPattern s = true ∨ s.data.getLast? = some '\n' := by
  unfold pyAmountMatch at h
  rcases Bool.or_eq_true_iff.mp h with h1 | h1
  · exact Or.inl h1
  · right
    have har : amountRest s.data = some ['\n'] := beq_iff_eq.mp h1
    have hsuf : ['\n'] <:+ s.data := amountRest_suffix _ _ har
    obtain ⟨p, hp⟩ := hsuf
    rw [← hp]
    exact List.getLast?_concat _

theorem normalizeAmount_ok (v : PyVal) (h : pyAmountMatch (pyStr v) = true) :
    normalizeAmount v = .ok (pyStr v) := by
  simp only [normalizeAmount, h]
  rfl

theorem normalizeAmount_fail (v : PyVal) (h : pyAmountMatch (pyStr v) = false) :
    normalizeAmount v = .error (.valueError
      ("could not parse amount " ++ pyRepr (pyStr v) ++
        ", must be a positive decimal")) := by
  simp only [normalizeAmount, h]
  rfl

/-!
## Error-shape inversions for the small helpers
-/

theorem asDict_error (v : PyVal) (e : PyError) (h : asDict v = .error e) :
    e = .typeError := by
  cases v with
  | pdict l => simp [asDict] at h
  | pstr s => simpa [asDict] using h.symm
  | pint n => simpa [asDict] using h.symm
  | pnone => simpa [asDict] using h.symm
  | pdec d => simpa [asDict] using h.symm

theorem lookupE_error (d : PyDict) (k : String) (e : PyError)
    (h : lookupE d k = .error e) : e = .keyError k := by
  unfold lookupE at h
  cases hk : dictLookup d k with
  | none => rw [hk] at h; simpa using h.symm
  | some v => rw [hk] at h; simp at h

theorem pyDecimal_error (v : PyVal) (e : PyError) (h : pyDecimal v = .error e) :
    e = .typeError ∨ e = .invalidOperation := by
  cases v with
  | pstr s =>
    simp only [pyDecimal] at h
    by_cases hd : isDecimalLiteral s = true
    · rw [if_pos hd] at h; simp at h
    · rw [if_neg hd] at h
      right
      simpa using h.symm
  | pint n => simp [pyDecimal] at h
  | pnone => exact Or.inl (by simpa [pyDecimal] using h.symm)
  | pdict l => exact Or.inl (by simpa [pyDecimal] using h.symm)
  | pdec d => simp [pyDecimal] at h

theorem normalizeAmount_error (v : PyVal) (e : PyError)
    (h : normalizeAmount v = .error e) : ∃ m, e = .valueError m := by
  simp only [normalizeAmount] at h
  by_cases hm : pyAmountMatch (pyStr v) = true
  · rw [hm] at h; simp at h
  · rw [Bool.not_eq_true] at hm
    rw [hm] at h
    exact ⟨_, by simpa using h.symm⟩

/-- `_verify_signature` can only fail with `KeyError`, `TypeError` (non-string
nonce in the response) or `InvalidSignature` — never `ServerError` or
`ValueError`. -/
theorem verifySignature_error (key : String) (data : PyDict)
    (fields : List String) (e : PyError)
    (h : verifySignature key data fields = .error e) :
    (∃ g, e = .keyError g) ∨ e = .typeError ∨ ∃ v, e = .invalidSignature v := by
  unfold verifySignature at h
  split at h
  · rename_i e1 heq
    obtain ⟨g, hg, _⟩ := lookupStrs_error_keyError _ _ _ heq
    have he : e1 = e := by injection h
    exact Or.inl ⟨g, he ▸ hg⟩
  · rename_i vals heq
    split at h
    · rename_i e2 heq2
      have he : e2 = e := by injection h
      exact Or.inr (Or.inl (he ▸ strVal_error _ _ heq2))
    · rename_i ns heq2
      split at h
      · have he : PyError.keyError "sign" = e := by injection h
        exact Or.inl ⟨"sign", he.symm⟩
      · rename_i stored heq3
        split at h
        · simp at h
        · have he : PyError.invalidSignature stored = e := by injection h
          exact Or.inr (Or.inr ⟨stored, he.symm⟩)

/-- The `InvalidSignature` branch of `_verify_signature` is reached only when
every designated field and the `sign` field are present. -/
theorem verifySignature_invalidSignature (key : String) (data : PyDict)
    (fields : List String) (v : PyVal)
    (h : verifySignature key data fields = .error (.invalidSignature v)) :
    (∀ f ∈ fields, (dictLookup data f).isSome) ∧
      (dictLookup data "sign").isSome := by
  unfold verifySignature at h
  split at h
  · rename_i e1 heq
    obtain ⟨g, hg, _⟩ := lookupStrs_error_keyError _ _ _ heq
    have he : e1 = PyError.invalidSignature v := by injection h
    rw [hg] at he
    cases he
  · rename_i vals heq
    split at h
    · rename_i e2 heq2
      have he : e2 = PyError.invalidSignature v := by injection h
      have ht := strVal_error _ _ heq2
      rw [ht] at he
      cases he
    · rename_i ns heq2
      split at h
      · have he : PyError.keyError "sign" = PyError.invalidSignature v := by
          injection h
        cases he
      · rename_i stored heq3
        exact ⟨lookupStrs_isSome_of_ok data fields vals heq,
          by simp [heq3]⟩

/-!
## `_call`'s transport and error mapping
-/

theorem pspCall_out_of_range (key path method : String) (sf : List String)
    (kw : PyDict) (p : PyDict) (reply : ServerReply)
    (hbp : buildSignedParams key sf kw = .ok p)
    (hout : reply.statusCode < 200 ∨ 400 ≤ reply.statusCode) :
    pspCall key path method sf kw reply =
      .error (.serverError reply.statusCode reply.reason reply.text) := by
  rcases hout with h | h <;> simp [pspCall, hbp, h]

theorem pspCall_in_range (key path method : String) (sf : List String)
    (kw : PyDict) (p : PyDict) (reply : ServerReply)
    (hbp : buildSignedParams key sf kw = .ok p)
    (h1 : 200 ≤ reply.statusCode) (h2 : reply.statusCode < 400) :
    pspCall key path method sf kw reply =
      reply.json.mapError PyError.valueError := by
  have hc1 : ¬ reply.statusCode < 200 := by omega
  have hc2 : ¬ 400 ≤ reply.statusCode := by omega
  simp [pspCall, hbp, hc1, hc2]

/-!
## Operation-level reductions
-/

theorem start_server_error (key : String)
    (a desc us cs mid oid uf cf nonce : PyVal) (reply : ServerReply)
    (a' : String)
    (hna : normalizeAmount a = .ok a')
    (hbp : ∃ p, buildSignedParams key startSignFields
      (startKwargs (.pstr a') desc us cs mid oid uf cf nonce) = .ok p)
    (hout : reply.statusCode < 200 ∨ 400 ≤ reply.statusCode) :
    start key a desc us cs mid oid uf cf nonce reply =
      .error (.serverError reply.statusCode reply.reason reply.text) := by
  obtain ⟨p, hp⟩ := hbp
  unfold start
  split
  · rename_i e1 heq
    rw [hna] at heq
    simp at heq
  · rename_i amount heq
    rw [hna] at heq
    have ha : a' = amount := by injection heq
    subst ha
    split
    · rename_i e2 heq2
      rw [pspCall_out_of_range key "/start/" "GET" startSignFields _ p reply
        hp hout] at heq2
      have : PyError.serverError reply.statusCode reply.reason reply.text
          = e2 := by injection heq2
      rw [← this]
    · rename_i data heq2
      rw [pspCall_out_of_range key "/start/" "GET" startSignFields _ p reply
        hp hout] at heq2
      simp at heq2

theorem start_json_eq (key : String)
    (a desc us cs mid oid uf cf nonce : PyVal) (reply : ServerReply)
    (a' : String) (v : PyVal) (d : PyDict)
    (hna : normalizeAmount a = .ok a')
    (hbp : ∃ p, buildSignedParams key startSignFields
      (startKwargs (.pstr a') desc us cs mid oid uf cf nonce) = .ok p)
    (h1 : 200 ≤ reply.statusCode) (h2 : reply.statusCode < 400)
    (hjson : reply.json = .ok v) (hd : asDict v = .ok d) :
    start key a desc us cs mid oid uf cf nonce reply =
      (match verifySignature key d startVerifyFields with
       | .error e => .error e
       | .ok _ => .ok v) := by
  obtain ⟨p, hp⟩ := hbp
  have hcall : pspCall key "/start/" "GET" startSignFields
      (startKwargs (.pstr a') desc us cs mid oid uf cf nonce) reply =
      .ok v := by
    rw [pspCall_in_range key "/start/" "GET" startSignFields _ p reply hp h1 h2,
      hjson]
    rfl
  unfold start
  split
  · rename_i e1 heq
    rw [hna] at heq
    simp at heq
  · rename_i amount heq
    rw [hna] at heq
    have ha : a' = amount := by injection heq
    subst ha
    split
    · rename_i e2 heq2
      rw [hcall] at heq2
      simp at heq2
    · rename_i data heq2
      rw [hcall] at heq2
      have hv : v = data := by injection heq2
      subst hv
      split
      · rename_i e3 heq3
        rw [hd] at heq3
        simp at heq3
      · rename_i d2 heq3
        rw [hd] at heq3
        have hd2 : d = d2 := by injection heq3
        subst hd2
        rfl

theorem start_error_shape (key : String)
    (a desc us cs mid oid uf cf nonce : PyVal) (reply : ServerReply)
    (a' : String) (e : PyError)
    (hna : normalizeAmount a = .ok a')
    (hbp : ∃ p, buildSignedParams key startSignFields
      (startKwargs (.pstr a') desc us cs mid oid uf cf nonce) = .ok p)
    (h1 : 200 ≤ reply.statusCode) (h2 : reply.statusCode < 400)
    (h : start key a desc us cs mid oid uf cf nonce reply = .error e) :
    (∃ m, e = .valueError m) ∨ e = .typeError ∨ (∃ g, e = .keyError g) ∨
      ∃ v, e = .invalidSignature v := by
  obtain ⟨p, hp⟩ := hbp
  unfold start at h
  split at h
  · rename_i e1 heq
    rw [hna] at heq
    simp at heq
  · rename_i amount heq
    rw [hna] at heq
    have ha : a' = amount := by injection heq
    subst ha
    split at h
    · rename_i e2 heq2
      rw [pspCall_in_range key "/start/" "GET" startSignFields _ p reply
        hp h1 h2] at heq2
      cases hj : reply.json with
      | error m =>
        rw [hj] at heq2
        have hm : PyError.valueError m = e2 := by
          simpa [Except.mapError] using heq2
        have he : e2 = e := by injection h
        exact Or.inl ⟨m, (hm.trans he).symm⟩
      | ok v =>
        rw [hj] at heq2
        simp [Except.mapError] at heq2
    · rename_i data heq2
      split at h
      · rename_i e3 heq3
        have he : e3 = e := by injection h
        exact Or.inr (Or.inl (he ▸ asDict_error _ _ heq3))
      · rename_i d heq3
        split at h
        · rename_i e4 heq4
          have he : e4 = e := by injection h
          rcases verifySignature_error _ _ _ _ heq4 with ⟨g, hg⟩ | ht | ⟨v, hv⟩
          · exact Or.inr (Or.inr (Or.inl ⟨g, he ▸ hg⟩))
          · exact Or.inr (Or.inl (he ▸ ht))
          · exact Or.inr (Or.inr (Or.inr ⟨v, he ▸ hv⟩))
        · simp at h

theorem pspCall_error_shape (key path method : String) (sf : List String)
    (kw : PyDict) (p : PyDict) (reply : ServerReply) (e : PyError)
    (hbp : buildSignedParams key sf kw = .ok p)
    (h : pspCall key path method sf kw reply = .error e) :
    (∃ c r b, e = .serverError c r b) ∨ ∃ m, e = .valueError m := by
  unfold pspCall at h
  split at h
  · rename_i e1 heq
    rw [hbp] at heq
    simp at heq
  · rename_i params heq
    split at h
    · rename_i hcond
      refine Or.inl ⟨reply.statusCode, reply.reason, reply.text, ?_⟩
      have := h.symm
      injection this
    · cases hj : reply.json with
      | error m =>
        rw [hj] at h
        have hm : PyError.valueError m = e := by
          simpa [Except.mapError] using h
        exact Or.inr ⟨m, hm.symm⟩
      | ok v =>
        rw [hj] at h
        simp [Except.mapError] at h

theorem price_btc_invalid_amount (key : String) (a : PyVal) (dec : Int)
    (reply : ServerReply) (h : pyAmountMatch (pyStr a) = false) :
    price_btc key a dec reply = .error (.valueError
      ("could not parse amount " ++ pyRepr (pyStr a) ++
        ", must be a positive decimal")) := by
  unfold price_btc
  split
  · rename_i e1 heq
    rw [normalizeAmount_fail a h] at heq
    have he : PyError.valueError ("could not parse amount " ++
        pyRepr (pyStr a) ++ ", must be a positive decimal") = e1 := by
      injection heq
    rw [← he]
  · rename_i amount heq
    rw [normalizeAmount_fail a h] at heq
    simp at heq

theorem price_btc_neg_decimals (key : String) (a : PyVal) (dec : Int)
    (reply : ServerReply) (a' : String)
    (hna : normalizeAmount a = .ok a') (hdec : dec < 0) :
    price_btc key a dec reply =
      .error (.valueError "decimals must be a positive integer") := by
  unfold price_btc
  split
  · rename_i e1 heq
    rw [hna] at heq
    simp at heq
  · rename_i amount heq
    rw [hna] at heq
    have ha : a' = amount := by injection heq
    subst ha
    rw [if_pos hdec]

theorem price_btc_server_error (key : String) (a : PyVal) (dec : Int)
    (reply : ServerReply) (a' : String)
    (hna : normalizeAmount a = .ok a') (hdec : ¬ dec < 0)
    (hout : reply.statusCode < 200 ∨ 400 ≤ reply.statusCode) :
    price_btc key a dec reply =
      .error (.serverError reply.statusCode reply.reason reply.text) := by
  unfold price_btc
  split
  · rename_i e1 heq
    rw [hna] at heq
    simp at heq
  · rename_i amount heq
    rw [hna] at heq
    have ha : a' = amount := by injection heq
    subst ha
    rw [if_neg hdec]
    split
    · rename_i e2 heq2
      rw [pspCall_out_of_range key "/price_btc/" "GET" [] _ _ reply rfl
        hout] at heq2
      have he : PyError.serverError reply.statusCode reply.reason reply.text
          = e2 := by injection heq2
      rw [← he]
    · rename_i v heq2
      rw [pspCall_out_of_range key "/price_btc/" "GET" [] _ _ reply rfl
        hout] at heq2
      simp at heq2

theorem price_btc_success (key : String) (a : PyVal) (dec : Int)
    (reply : ServerReply) (a' : String) (v : PyVal) (dv : String)
    (hna : normalizeAmount a = .ok a') (hdec : ¬ dec < 0)
    (h1 : 200 ≤ reply.statusCode) (h2 : reply.statusCode < 400)
    (hjson : reply.json = .ok v) (hdv : pyDecimal v = .ok dv) :
    price_btc key a dec reply = .ok (.pdec dv) := by
  have hcall : pspCall key "/price_btc/" "GET" []
      [("amount_eur", .pstr a'), ("decimals", .pint dec)] reply = .ok v := by
    rw [pspCall_in_range key "/price_btc/" "GET" [] _ _ reply rfl h1 h2, hjson]
    rfl
  unfold price_btc
  split
  · rename_i e1 heq
    rw [hna] at heq
    simp at heq
  · rename_i amount heq
    rw [hna] at heq
    have ha : a' = amount := by injection heq
    subst ha
    rw [if_neg hdec]
    split
    · rename_i e2 heq2
      rw [hcall] at heq2
      simp at heq2
    · rename_i v2 heq2
      rw [hcall] at heq2
      have hv : v = v2 := by injection heq2
      subst hv
      split
      · rename_i e3 heq3
        rw [hdv] at heq3
        simp at heq3
      · rename_i dv2 heq3
        rw [hdv] at heq3
        have hdv2 : dv = dv2 := by injection heq3
        subst hdv2
        rfl

theorem price_btc_no_invalidSignature (key : String) (a : PyVal) (dec : Int)
    (reply : ServerReply) (v : PyVal) :
    price_btc key a dec reply ≠ .error (.invalidSignature v) := by
  intro h
  unfold price_btc at h
  split at h
  · rename_i e1 heq
    obtain ⟨m, hm⟩ := normalizeAmount_error _ _ heq
    have he : e1 = PyError.invalidSignature v := by injection h
    rw [hm] at he
    cases he
  · rename_i amount heq
    split at h
    · have he : PyError.valueError "decimals must be a positive integer" =
          PyError.invalidSignature v := by injection h
      cases he
    · split at h
      · rename_i e2 heq2
        have he : e2 = PyError.invalidSignature v := by injection h
        rcases pspCall_error_shape key "/price_btc/" "GET" [] _ _ reply e2 rfl
            heq2 with ⟨c, r, b, hs⟩ | ⟨m, hm⟩
        · rw [hs] at he; cases he
        · rw [hm] at he; cases he
      · rename_i v2 heq2
        split at h
        · rename_i e3 heq3
          have he : e3 = PyError.invalidSignature v := by injection h
          rcases pyDecimal_error _ _ heq3 with ht | ht <;> rw [ht] at he <;>
            cases he
        · simp at h

theorem lookupE_ok (d : PyDict) (k : String) (v : PyVal)
    (h : dictLookup d k = some v) : lookupE d k = .ok v := by
  unfold lookupE
  rw [h]

theorem transaction_status_server_error (key : String) (tx nonce : PyVal)
    (reply : ServerReply)
    (hout : reply.statusCode < 200 ∨ 400 ≤ reply.statusCode) :
    transaction_status key tx nonce reply =
      .error (.serverError reply.statusCode reply.reason reply.text) := by
  unfold transaction_status
  split
  · rename_i e1 heq
    rw [pspCall_out_of_range key ("/tx/" ++ pyStr tx ++ "/status/") "GET" []
      [] [] reply rfl hout] at heq
    have he : PyError.serverError reply.statusCode reply.reason reply.text
        = e1 := by injection heq
    rw [← he]
  · rename_i data heq
    rw [pspCall_out_of_range key ("/tx/" ++ pyStr tx ++ "/status/") "GET" []
      [] [] reply rfl hout] at heq
    simp at heq

theorem transaction_status_verify_fail (key : String) (tx nonce : PyVal)
    (reply : ServerReply) (v : PyVal) (d : PyDict) (e : PyError)
    (h1 : 200 ≤ reply.statusCode) (h2 : reply.statusCode < 400)
    (hjson : reply.json = .ok v) (hd : asDict v = .ok d)
    (hver : verifySignature key d txVerifyFields = .error e) :
    transaction_status key tx nonce reply = .error e := by
  have hcall : pspCall key ("/tx/" ++ pyStr tx ++ "/status/") "GET" [] []
      reply = .ok v := by
    rw [pspCall_in_range key ("/tx/" ++ pyStr tx ++ "/status/") "GET" [] []
      [] reply rfl h1 h2, hjson]
    rfl
  unfold transaction_status
  split
  · rename_i e1 heq
    rw [hcall] at heq
    simp at heq
  · rename_i data heq
    rw [hcall] at heq
    have hv : v = data := by injection heq
    subst hv
    split
    · rename_i e2 heq2
      rw [hd] at heq2
      simp at heq2
    · rename_i d2 heq2
      rw [hd] at heq2
      have hd2 : d = d2 := by injection heq2
      subst hd2
      split
      · rename_i e3 heq3
        rw [hver] at heq3
        have he : e = e3 := by injection heq3
        rw [← he]
      · rename_i u heq3
        rw [hver] at heq3
        simp at heq3

theorem transaction_status_success (key : String) (tx nonce : PyVal)
    (reply : ServerReply) (v : PyVal) (d : PyDict)
    (st ab ar tx2 sg : PyVal) (abd ard : String)
    (h1 : 200 ≤ reply.statusCode) (h2 : reply.statusCode < 400)
    (hjson : reply.json = .ok v) (hd : asDict v = .ok d)
    (hver : verifySignature key d txVerifyFields = .ok ())
    (hst : dictLookup d "status" = some st)
    (hab : dictLookup d "amount_btc" = some ab)
    (habd : pyDecimal ab = .ok abd)
    (har : dictLookup d "amount_received" = some ar)
    (hard : pyDecimal ar = .ok ard)
    (htx : dictLookup d "txid" = some tx2)
    (hsg : dictLookup d "sign" = some sg) :
    transaction_status key tx nonce reply = .ok (.pdict
      [("status", st), ("amount_btc", .pdec abd),
       ("amount_received", .pdec ard), ("txid", tx2), ("sign", sg)]) := by
  have hcall : pspCall key ("/tx/" ++ pyStr tx ++ "/status/") "GET" [] []
      reply = .ok v := by
    rw [pspCall_in_range key ("/tx/" ++ pyStr tx ++ "/status/") "GET" [] []
      [] reply rfl h1 h2, hjson]
    rfl
  unfold transaction_status
  split
  · rename_i e1 heq
    rw [hcall] at heq
    simp at heq
  · rename_i data heq
    rw [hcall] at heq
    have hv : v = data := by injection heq
    subst hv
    split
    · rename_i e2 heq2
      rw [hd] at heq2
      simp at heq2
    · rename_i d2 heq2
      rw [hd] at heq2
      have hd2 : d = d2 := by injection heq2
      subst hd2
      split
      · rename_i e3 heq3
        rw [hver] at heq3
        simp at heq3
      · rename_i u heq3
        clear heq3
        split
        · rename_i e4 heq4
          rw [lookupE_ok d "status" st hst] at heq4
          simp at heq4
        · rename_i st2 heq4
          rw [lookupE_ok d "status" st hst] at heq4
          have h4 : st = st2 := by injection heq4
          subst h4
          split
          · rename_i e5 heq5
            rw [lookupE_ok d "amount_btc" ab hab] at heq5
            simp at heq5
          · rename_i ab2 heq5
            rw [lookupE_ok d "amount_btc" ab hab] at heq5
            have h5 : ab = ab2 := by injection heq5
            subst h5
            split
            · rename_i e6 heq6
              rw [habd] at heq6
              simp at heq6
            · rename_i abd2 heq6
              rw [habd] at heq6
              have h6 : abd = abd2 := by injection heq6
              subst h6
              split
              · rename_i e7 heq7
                rw [lookupE_ok d "amount_received" ar har] at heq7
                simp at heq7
              · rename_i ar2 heq7
                rw [lookupE_ok d "amount_received" ar har] at heq7
                have h7 : ar = ar2 := by injection heq7
                subst h7
                split
                · rename_i e8 heq8
                  rw [hard] at heq8
                  simp at heq8
                · rename_i ard2 heq8
                  rw [hard] at heq8
                  have h8 : ard = ard2 := by injection heq8
                  subst h8
                  split
                  · rename_i e9 heq9
                    rw [lookupE_ok d "txid" tx2 htx] at heq9
                    simp at heq9
                  · rename_i tx3 heq9
                    rw [lookupE_ok d "txid" tx2 htx] at heq9
                    have h9 : tx2 = tx3 := by injection heq9
                    subst h9
                    split
                    · rename_i e10 heq10
                      rw [lookupE_ok d "sign" sg hsg] at heq10
                      simp at heq10
                    · rename_i sg2 heq10
                      rw [lookupE_ok d "sign" sg hsg] at heq10
                      have h10 : sg = sg2 := by injection heq10
                      subst h10
                      rfl

theorem transaction_status_error_shape (key : String) (tx nonce : PyVal)
    (reply : ServerReply) (e : PyError)
    (h1 : 200 ≤ reply.statusCode) (h2 : reply.statusCode < 400)
    (h : transaction_status key tx nonce reply = .error e) :
    (∃ m, e = .valueError m) ∨ e = .typeError ∨ (∃ g, e = .keyError g) ∨
      (∃ v, e = .invalidSignature v) ∨ e = .invalidOperation := by
  unfold transaction_status at h
  split at h
  · rename_i e1 heq
    have he : e1 = e := by injection h
    rcases pspCall_error_shape key ("/tx/" ++ pyStr tx ++ "/status/") "GET"
        [] [] [] reply e1 rfl heq with ⟨c, r, b, hs⟩ | ⟨m, hm⟩
    · rw [pspCall_in_range key ("/tx/" ++ pyStr tx ++ "/status/") "GET" [] []
        [] reply rfl h1 h2] at heq
      cases hj : reply.json with
      | error m2 =>
        rw [hj] at heq
        have hm2 : PyError.valueError m2 = e1 := by
          simpa [Except.mapError] using heq
        exact Or.inl ⟨m2, he ▸ hm2.symm⟩
      | ok v =>
        rw [hj] at heq
        simp [Except.mapError] at heq
    · exact Or.inl ⟨m, he ▸ hm⟩
  · rename_i data heq
    split at h
    · rename_i e2 heq2
      have he : e2 = e := by injection h
      exact Or.inr (Or.inl (he ▸ asDict_error _ _ heq2))
    · rename_i d heq2
      split at h
      · rename_i e3 heq3
        have he : e3 = e := by injection h
        rcases verifySignature_error _ _ _ _ heq3 with ⟨g, hg⟩ | ht | ⟨w, hw⟩
        · exact Or.inr (Or.inr (Or.inl ⟨g, he ▸ hg⟩))
        · exact Or.inr (Or.inl (he ▸ ht))
        · exact Or.inr (Or.inr (Or.inr (Or.inl ⟨w, he ▸ hw⟩)))
      · rename_i u heq3
        split at h
        · rename_i e4 heq4
          have he : e4 = e := by injection h
          exact Or.inr (Or.inr (Or.inl ⟨"status", he ▸ lookupE_error _ _ _ heq4⟩))
        · rename_i st heq4
          split at h
          · rename_i e5 heq5
            have he : e5 = e := by injection h
            exact Or.inr (Or.inr (Or.inl
              ⟨"amount_btc", he ▸ lookupE_error _ _ _ heq5⟩))
          · rename_i ab heq5
            split at h
            · rename_i e6 heq6
              have he : e6 = e := by injection h
              rcases pyDecimal_error _ _ heq6 with ht | ht
              · exact Or.inr (Or.inl (he ▸ ht))
              · exact Or.inr (Or.inr (Or.inr (Or.inr (he ▸ ht))))
            · rename_i abd heq6
              split at h
              · rename_i e7 heq7
                have he : e7 = e := by injection h
                exact Or.inr (Or.inr (Or.inl
                  ⟨"amount_received", he ▸ lookupE_error _ _ _ heq7⟩))
              · rename_i ar heq7
                split at h
                · rename_i e8 heq8
                  have he : e8 = e := by injection h
                  rcases pyDecimal_error _ _ heq8 with ht | ht
                  · exact Or.inr (Or.inl (he ▸ ht))
                  · exact Or.inr (Or.inr (Or.inr (Or.inr (he ▸ ht))))
                · rename_i ard heq8
                  split at h
                  · rename_i e9 heq9
                    have he : e9 = e := by injection h
                    exact Or.inr (Or.inr (Or.inl
                      ⟨"txid", he ▸ lookupE_error _ _ _ heq9⟩))
                  · rename_i tx2 heq9
                    split at h
                    · rename_i e10 heq10
                      have he : e10 = e := by injection h
                      exact Or.inr (Or.inr (Or.inl
                        ⟨"sign", he ▸ lookupE_error _ _ _ heq10⟩))
                    · simp at h

theorem price_btc_error_shape (key : String) (a : PyVal) (dec : Int)
    (reply : ServerReply) (a' : String) (e : PyError)
    (hna : normalizeAmount a = .ok a')
    (h1 : 200 ≤ reply.statusCode) (h2 : reply.statusCode < 400)
    (h : price_btc key a dec reply = .error e) :
    (∃ m, e = .valueError m) ∨ e = .typeError ∨ e = .invalidOperation := by
  unfold price_btc at h
  split at h
  · rename_i e1 heq
    rw [hna] at heq
    simp at heq
  · rename_i amount heq
    rw [hna] at heq
    have ha : a' = amount := by injection heq
    subst ha
    split at h
    · have he : PyError.valueError "decimals must be a positive integer" = e := by
        injection h
      exact Or.inl ⟨_, he.symm⟩
    · split at h
      · rename_i e2 heq2
        have he : e2 = e := by injection h
        rw [pspCall_in_range key "/price_btc/" "GET" [] _ _ reply rfl
          h1 h2] at heq2
        cases hj : reply.json with
        | error m =>
          rw [hj] at heq2
          have hm : PyError.valueError m = e2 := by
            simpa [Except.mapError] using heq2
          exact Or.inl ⟨m, (hm.trans he).symm⟩
        | ok v =>
          rw [hj] at heq2
          simp [Except.mapError] at heq2
      · rename_i v heq2
        split at h
        · rename_i e3 heq3
          have he : e3 = e := by injection h
          rcases pyDecimal_error _ _ heq3 with ht | ht
          · exact Or.inr (Or.inl (he ▸ ht))
          · exact Or.inr (Or.inr (he ▸ ht))
        · simp at h

theorem transaction_status_decimal_fail (key : String) (tx nonce : PyVal)
    (reply : ServerReply) (v : PyVal) (d : PyDict) (st ab : PyVal)
    (e : PyError)
    (h1 : 200 ≤ reply.statusCode) (h2 : reply.statusCode < 400)
    (hjson : reply.json = .ok v) (hd : asDict v = .ok d)
    (hver : verifySignature key d txVerifyFields = .ok ())
    (hst : dictLookup d "status" = some st)
    (hab : dictLookup d "amount_btc" = some ab)
    (habd : pyDecimal ab = .error e) :
    transaction_status key tx nonce reply = .error e := by
  have hcall : pspCall key ("/tx/" ++ pyStr tx ++ "/status/") "GET" [] []
      reply = .ok v := by
    rw [pspCall_in_range key ("/tx/" ++ pyStr tx ++ "/status/") "GET" [] []
      [] reply rfl h1 h2, hjson]
    rfl
  unfold transaction_status
  split
  · rename_i e1 heq
    rw [hcall] at heq
    simp at heq
  · rename_i data heq
    rw [hcall] at heq
    have hv : v = data := by injection heq
    subst hv
    split
    · rename_i e2 heq2
      rw [hd] at heq2
      simp at heq2
    · rename_i d2 heq2
      rw [hd] at heq2
      have hd2 : d = d2 := by injection heq2
      subst hd2
      split
      · rename_i e3 heq3
        rw [hver] at heq3
        simp at heq3
      · rename_i u heq3
        clear heq3
        split
        · rename_i e4 heq4
          rw [lookupE_ok d "status" st hst] at heq4
          simp at heq4
        · rename_i st2 heq4
          split
          · rename_i e5 heq5
            rw [lookupE_ok d "amount_btc" ab hab] at heq5
            simp at heq5
          · rename_i ab2 heq5
            rw [lookupE_ok d "amount_btc" ab hab] at heq5
            have h5 : ab = ab2 := by injection heq5
            subst h5
            split
            · rename_i e6 heq6
              rw [habd] at heq6
              have h6 : e = e6 := by injection heq6
              rw [← h6]
            · rename_i abd heq6
              rw [habd] at heq6
              simp at heq6

/-!
## The claims
-/

/-- C1: for every list of field names, mapping of field values, nonce (a
string, or absent) and key, the computed signature equals the lowercase
hexadecimal HMAC-SHA256, keyed by the API key, of the concatenation with no
delimiter of `str(value)` for each signed field in the declared order
followed by the nonce string (the empty string when the nonce is absent or
falsy — the empty string being the only falsy string); `_call` stores exactly
`spec_signature` in the transmitted `sign` parameter, and `_verify_signature`
compares the response's `sign` against exactly `spec_signature` of the same
data. -/
theorem C1_signature_construction (key : String) (fields : List String)
    (data : PyDict) (vals : List String) (nonce : Option String)
    (hf : fields ≠ [])
    (hv : lookupStrs data fields = .ok vals)
    (hn : dictLookup data "nonce" = Option.map PyVal.pstr nonce) :
    (∃ d, buildSignedParams key fields data = .ok d ∧
      dictLookup d "sign" = some (.pstr (spec_signature key vals nonce))) ∧
    (∀ sg, dictLookup data "sign" = some (.pstr sg) →
      verifySignature key data fields =
        (if sg = spec_signature key vals nonce then .ok ()
         else .error (.invalidSignature (.pstr sg)))) := by
  constructor
  · exact ⟨_, buildSignedParams_eq key fields data vals nonce hf hv (Or.inl hn),
      dictLookup_set_self _ _ _⟩
  · intro sg hsg
    rw [verify_eq key data fields vals nonce _ hv hn hsg]
    by_cases h : sg = spec_signature key vals nonce
    · have hb : pyEqStr (spec_signature key vals nonce) (.pstr sg) = true := by
        simp [pyEqStr, h]
      rw [hb, if_pos h]
      rfl
    · have hb : pyEqStr (spec_signature key vals nonce) (.pstr sg) = false := by
        simp only [pyEqStr]
        exact beq_eq_false_iff_ne.mpr fun hc => h hc.symm
      rw [hb, if_neg h]
      rfl

theorem C1_signature_construction_witness :
    (∃ d, buildSignedParams "k" ["a"]
        [("a", .pstr "x"), ("nonce", .pstr "zz"), ("sign", .pstr "old")] =
        .ok d ∧
      dictLookup d "sign" =
        some (.pstr (spec_signature "k" ["x"] (some "zz")))) ∧
    verifySignature "k"
        [("a", .pstr "x"), ("nonce", .pstr "zz"), ("sign", .pstr "old")]
        ["a"] =
      (if "old" = spec_signature "k" ["x"] (some "zz") then .ok ()
       else .error (.invalidSignature (.pstr "old"))) :=
  ⟨(C1_signature_construction "k" ["a"]
      [("a", .pstr "x"), ("nonce", .pstr "zz"), ("sign", .pstr "old")]
      ["x"] (some "zz") (by simp) rfl rfl).1,
   (C1_signature_construction "k" ["a"]
      [("a", .pstr "x"), ("nonce", .pstr "zz"), ("sign", .pstr "old")]
      ["x"] (some "zz") (by simp) rfl rfl).2 "old" rfl⟩

/-- C5 counterexample: the claim's universal rejection clause is false on the
code.  `"12\n"` does not match the mathematical pattern `^\d+(\.\d+)?$`
(`specAmountPattern`), yet `_normalize_amount` accepts it unchanged, because
Python's `$` also matches just before a trailing newline.  Moreover the error
message contains `repr(input)`, not the raw input: for the rejected input
`"a\nb"` the message (whose newline is escaped to `\n`) does not contain the
input as a substring, refuting the "message includes the rejected input"
clause read literally. -/
theorem C5_counterexample :
    (specAmountPattern "12\n" = false ∧
      normalizeAmount (.pstr "12\n") = .ok "12\n") ∧
    (∀ pre post : String,
      normalizeAmount (.pstr "a\nb") ≠
        .error (.valueError (pre ++ "a\nb" ++ post))) := by
  refine ⟨⟨rfl, rfl⟩, ?_⟩
  intro pre post hc
  have hmsg : normalizeAmount (.pstr "a\nb") = .error (.valueError
      "could not parse amount 'a\\nb', must be a positive decimal") := rfl
  rw [hmsg] at hc
  have h1 : "could not parse amount 'a\\nb', must be a positive decimal" =
      pre ++ "a\nb" ++ post := by
    have h2 := hc
    simp only [Except.error.injEq, PyError.valueError.injEq] at h2
    exact h2
  have h2 : '\n' ∈ (pre ++ "a\nb" ++ post).data := by
    simp only [String.data_append]
    refine List.mem_append.mpr (Or.inl (List.mem_append.mpr (Or.inr ?_)))
    decide
  rw [← h1] at h2
  exact absurd h2 (by decide)

/-- C5 amended: for every string matching the literal pattern `^\d+(\.\d+)?$`
(`specAmountPattern`), `_normalize_amount` is the identity; for every string
that neither matches the pattern nor ends in a newline (the one extra family
Python's `$` admits), it fails with a `ValueError` whose message names the
`repr` of the rejected input. -/
theorem C5_amount_normalization (s : String) :
    (specAmountPattern s = true → normalizeAmount (.pstr s) = .ok s) ∧
    (specAmountPattern s = false → s.data.getLast? ≠ some '\n' →
      normalizeAmount (.pstr s) = .error (.valueError
        ("could not parse amount " ++ pyRepr s ++
          ", must be a positive decimal"))) := by
  constructor
  · intro h
    exact normalizeAmount_ok (.pstr s) (pyAmountMatch_of_spec s h)
  · intro hspec hnl
    have hpy : pyAmountMatch s = false := by
      by_contra hb
      rw [Bool.not_eq_false] at hb
      rcases pyAmountMatch_cases s hb with h | h
      · rw [h] at hspec; cases hspec
      · exact hnl h
    exact normalizeAmount_fail (.pstr s) hpy

theorem C5_amount_normalization_witness :
    normalizeAmount (.pstr "10.00") = .ok "10.00" ∧
    normalizeAmount (.pstr "1,0") = .error (.valueError
      ("could not parse amount " ++ pyRepr "1,0" ++
        ", must be a positive decimal")) :=
  ⟨(C5_amount_normalization "10.00").1 (by decide),
   (C5_amount_normalization "1,0").2 (by decide) (by decide)⟩

/-- C9: whenever `_call` is given a non-empty signed-field set and builds a
request, the transmitted parameter mapping contains the computed `sign`
field, contains no `nonce` key (the nonce is popped and participates only in
the MAC input), and maps every other key exactly as the supplied keyword
parameters do. -/
theorem C9_nonce_not_transmitted (key : String) (sf : List String)
    (kwargs d : PyDict) (hsf : sf ≠ [])
    (h : buildSignedParams key sf kwargs = .ok d) :
    (∃ s, dictLookup d "sign" = some (.pstr s)) ∧
    dictLookup d "nonce" = none ∧
    ∀ k', k' ≠ "nonce" → k' ≠ "sign" → dictLookup d k' = dictLookup kwargs k' := by
  unfold buildSignedParams at h
  split at h
  · rename_i hemp
    cases sf with
    | nil => exact absurd rfl hsf
    | cons a t => simp at hemp
  · split at h
    · simp at h
    · rename_i vals heq
      split at h
      · simp at h
      · rename_i ns heq2
        have hd : dictSet (dictRemove kwargs "nonce") "sign"
            (.pstr (hmacHex key (String.join vals ++ ns))) = d := by
          injection h
        subst hd
        refine ⟨⟨_, dictLookup_set_self _ _ _⟩, ?_, ?_⟩
        · rw [dictLookup_set_other _ _ _ _ (by simp),
            dictLookup_remove_self]
        · intro k' hk1 hk2
          rw [dictLookup_set_other _ _ _ _ hk2,
            dictLookup_remove_other _ _ _ hk1]

theorem C9_nonce_not_transmitted_witness :
    (∃ s, dictLookup (dictSet
        (dictRemove [("a", .pstr "x"), ("b", .pstr "y"),
          ("nonce", .pstr "zz")] "nonce") "sign"
        (.pstr (hmacHex "k" (String.join ["x"] ++ "zz")))) "sign" =
      some (.pstr s)) ∧
    dictLookup (dictSet
      (dictRemove [("a", .pstr "x"), ("b", .pstr "y"),
        ("nonce", .pstr "zz")] "nonce") "sign"
      (.pstr (hmacHex "k" (String.join ["x"] ++ "zz")))) "nonce" = none ∧
    ∀ k', k' ≠ "nonce" → k' ≠ "sign" →
      dictLookup (dictSet
        (dictRemove [("a", .pstr "x"), ("b", .pstr "y"),
          ("nonce", .pstr "zz")] "nonce") "sign"
        (.pstr (hmacHex "k" (String.join ["x"] ++ "zz")))) k' =
      dictLookup [("a", .pstr "x"), ("b", .pstr "y"),
        ("nonce", .pstr "zz")] k' :=
  C9_nonce_not_transmitted "k" ["a"]
    [("a", .pstr "x"), ("b", .pstr "y"), ("nonce", .pstr "zz")] _
    (by simp) rfl

/-- C10 counterexample: a response that lacks the `sign` field but carries a
JSON `null` nonce fails with `TypeError` (raised by `''.join` on the
non-string nonce), not with a key-lookup error — refuting the claim that
every mapping lacking `sign` fails with a key-lookup error. -/
theorem C10_counterexample :
    verifySignature "k"
      [("status", .pstr "S"), ("amount_btc", .pstr "1"),
       ("amount_received", .pstr "1"), ("txid", .pstr "t"),
       ("nonce", .pnone)]
      txVerifyFields = .error .typeError := rfl

/-- C10 amended: a response lacking one of the designated fields fails with a
`KeyError`; a response with all designated fields but no `sign` field fails
with `KeyError "sign"` provided its nonce field, when present, is a string
(a non-string nonce raises `TypeError` first); and the `InvalidSignature`
branch is reached only when every designated field and the `sign` field are
present. -/
theorem C10_missing_fields (key : String) (data : PyDict)
    (fields : List String) :
    ((∃ f ∈ fields, dictLookup data f = none) →
      ∃ g, verifySignature key data fields = .error (.keyError g)) ∧
    ((∀ f ∈ fields, (dictLookup data f).isSome) →
      dictLookup data "sign" = none →
      (dictLookup data "nonce" = none ∨
        ∃ s, dictLookup data "nonce" = some (.pstr s)) →
      verifySignature key data fields = .error (.keyError "sign")) ∧
    (∀ v, verifySignature key data fields = .error (.invalidSignature v) →
      (∀ f ∈ fields, (dictLookup data f).isSome) ∧
        (dictLookup data "sign").isSome) := by
  refine ⟨?_, ?_, ?_⟩
  · rintro ⟨f, hf, hnone⟩
    obtain ⟨g, hg⟩ := lookupStrs_error_of_missing data fields f hf hnone
    refine ⟨g, ?_⟩
    unfold verifySignature
    rw [hg]
  · intro hall hsignone hnonce
    obtain ⟨vals, hvals⟩ := lookupStrs_ok_of_isSome data fields hall
    unfold verifySignature
    rcases hnonce with hn | ⟨s, hn⟩ <;> rw [hvals, hn, hsignone] <;> rfl
  · intro v h
    exact verifySignature_invalidSignature key data fields v h

theorem C10_missing_fields_witness :
    (∃ g, verifySignature "k" [("txid", .pstr "t")] txVerifyFields =
      .error (.keyError g)) ∧
    verifySignature "k"
      [("status", .pstr "S"), ("amount_btc", .pstr "1"),
       ("amount_received", .pstr "1"), ("txid", .pstr "t")]
      txVerifyFields = .error (.keyError "sign") ∧
    ((∀ f ∈ txVerifyFields, (dictLookup
        [("status", .pstr "S"), ("amount_btc", .pstr "1"),
         ("amount_received", .pstr "1"), ("txid", .pstr "t"),
         ("sign", .pint 5)] f).isSome) ∧
      (dictLookup
        [("status", .pstr "S"), ("amount_btc", .pstr "1"),
         ("amount_received", .pstr "1"), ("txid", .pstr "t"),
         ("sign", .pint 5)] "sign").isSome) :=
  ⟨(C10_missing_fields "k" [("txid", .pstr "t")] txVerifyFields).1
      ⟨"status", by decide, rfl⟩,
   (C10_missing_fields "k"
      [("status", .pstr "S"), ("amount_btc", .pstr "1"),
       ("amount_received", .pstr "1"), ("txid", .pstr "t")]
      txVerifyFields).2.1 (by decide) rfl (Or.inl rfl),
   (C10_missing_fields "k"
      [("status", .pstr "S"), ("amount_btc", .pstr "1"),
       ("amount_received", .pstr "1"), ("txid", .pstr "t"),
       ("sign", .pint 5)]
      txVerifyFields).2.2 (.pint 5) rfl⟩

/-- C3 counterexample: the claim's mutation clause, read over all mappings, is
false on the code.  The digest is a 256-bit quantity, so by pigeonhole two
distinct field values collide under HMAC-SHA256; for such a pair, a mapping
signed per the documented construction still verifies after its single signed
field is changed to the other value. -/
theorem C3_counterexample :
    ∃ m n : Nat, PyVal.pstr (repA n) ≠ PyVal.pstr (repA m) ∧
      verifySignature "k"
        [("x", .pstr (repA m)),
         ("sign", .pstr (hmacHex "k" (String.join [repA m] ++ "")))] ["x"] =
        .ok () ∧
      verifySignature "k"
        (dictSet
          [("x", .pstr (repA m)),
           ("sign", .pstr (hmacHex "k" (String.join [repA m] ++ "")))]
          "x" (.pstr (repA n))) ["x"] = .ok () := by
  obtain ⟨m, n, hmn, heq⟩ := hmacHex_exists_collision "k"
    (fun i => String.join [repA i] ++ "")
  have heq' : hmacHex "k" (String.join [repA m] ++ "") =
      hmacHex "k" (String.join [repA n] ++ "") := heq
  refine ⟨m, n, ?_, ?_, ?_⟩
  · intro hc
    have hr : repA n = repA m := by injection hc
    exact hmn (repA_injective hr).symm
  · exact verify_ok "k" _ ["x"] [repA m] none rfl rfl rfl
  · refine verify_ok "k" _ ["x"] [repA n] none rfl rfl ?_
    have hsig : spec_signature "k" [repA n] none =
        hmacHex "k" (String.join [repA m] ++ "") := heq'.symm
    rw [hsig]
    rfl

/-- C3 amended: round-trip and mutation for `_verify_signature`.  A response
whose `sign` field is the documented digest of its own field values verifies;
changing a single signed-field value always changes the MAC input string;
and the mutated response fails verification with `InvalidSignature` whenever
the recomputed digest differs from the stored one — a caveat the
counterexample shows cannot be dropped, since HMAC-SHA256 collisions exist. -/
theorem C3_roundtrip_and_mutation (key : String) (data : PyDict)
    (fields : List String) (vals : List String) (nonce : Option String)
    (hv : lookupStrs data fields = .ok vals)
    (hn : dictLookup data "nonce" = Option.map PyVal.pstr nonce)
    (hs : dictLookup data "sign" =
      some (.pstr (spec_signature key vals nonce))) :
    verifySignature key data fields = .ok () ∧
    (∀ pre x x' post, vals = pre ++ x :: post → x' ≠ x →
      String.join (pre ++ x' :: post) ++ nonce.getD "" ≠
        String.join vals ++ nonce.getD "") ∧
    (∀ (data' : PyDict) (vals' : List String),
      lookupStrs data' fields = .ok vals' →
      dictLookup data' "nonce" = Option.map PyVal.pstr nonce →
      dictLookup data' "sign" =
        some (.pstr (spec_signature key vals nonce)) →
      hmacHex key (String.join vals' ++ nonce.getD "") ≠
        spec_signature key vals nonce →
      verifySignature key data' fields =
        .error (.invalidSignature (.pstr (spec_signature key vals nonce)))) := by
  refine ⟨verify_ok key data fields vals nonce hv hn hs, ?_, ?_⟩
  · intro pre x x' post hvals hne
    subst hvals
    exact join_single_change_ne pre post x x' (nonce.getD "") hne
  · intro data' vals' hv' hn' hs' hne
    refine verify_fail key data' fields vals' nonce _ hv' hn' hs' ?_
    simp only [pyEqStr]
    exact beq_eq_false_iff_ne.mpr hne

theorem C3_roundtrip_and_mutation_witness :
    verifySignature "k"
      [("x", .pstr "v"), ("sign", .pstr (spec_signature "k" ["v"] none))]
      ["x"] = .ok () ∧
    verifySignature "k"
      [("x", .pstr "w"), ("sign", .pstr (spec_signature "k" ["v"] none))]
      ["x"] = .error (.invalidSignature
        (.pstr (spec_signature "k" ["v"] none))) :=
  ⟨(C3_roundtrip_and_mutation "k"
      [("x", .pstr "v"), ("sign", .pstr (spec_signature "k" ["v"] none))]
      ["x"] ["v"] none rfl rfl rfl).1,
   (C3_roundtrip_and_mutation "k"
      [("x", .pstr "v"), ("sign", .pstr (spec_signature "k" ["v"] none))]
      ["x"] ["v"] none rfl rfl rfl).2.2
      [("x", .pstr "w"), ("sign", .pstr (spec_signature "k" ["v"] none))]
      ["w"] rfl rfl rfl (by decide)⟩

/-- C4 counterexample: the claim's "altered field raises `InvalidSignature`"
clause is false on the code: by pigeonhole two distinct `url_status` values
collide under the digest, and `start` then returns the altered mapping
successfully even though `url_status` differs from the signed value. -/
theorem C4_counterexample :
    ∃ m n : Nat, repA n ≠ repA m ∧
      start "k" (.pstr "10.00") (.pstr "D") (.pstr "u") (.pstr "c")
        (.pint 1) .pnone .pnone .pnone .pnone
        { statusCode := 200, reason := "OK", text := "",
          json := .ok (.pdict (alteredStartData m n)) } =
        .ok (.pdict (alteredStartData m n)) := by
  obtain ⟨m, n, hmn, heq⟩ := hmacHex_exists_collision "k"
    (fun i => String.join ["p", "b", "q", repA i] ++ "")
  have heq' : hmacHex "k" (String.join ["p", "b", "q", repA m] ++ "") =
      hmacHex "k" (String.join ["p", "b", "q", repA n] ++ "") := heq
  refine ⟨m, n, fun hc => hmn (repA_injective hc).symm, ?_⟩
  have hstart := start_json_eq "k" (.pstr "10.00") (.pstr "D") (.pstr "u")
    (.pstr "c") (.pint 1) .pnone .pnone .pnone .pnone
    { statusCode := 200, reason := "OK", text := "",
      json := .ok (.pdict (alteredStartData m n)) }
    "10.00" (.pdict (alteredStartData m n)) (alteredStartData m n)
    rfl ⟨_, rfl⟩ (by norm_num) (by norm_num) rfl rfl
  rw [hstart]
  have hver : verifySignature "k" (alteredStartData m n)
      startVerifyFields = .ok () := by
    refine verify_ok "k" _ startVerifyFields ["p", "b", "q", repA n] none
      rfl rfl ?_
    have hsig : spec_signature "k" ["p", "b", "q", repA n] none =
        hmacHex "k" (String.join ["p", "b", "q", repA m] ++ "") := heq'.symm
    rw [hsig]
    rfl
  rw [hver]

/-- C4 amended: `start` signs exactly `(amount_eur, description, url_success,
merchant_id)` in that order on the outgoing request; when the response
signature over `(url_pay, btc_address, url_qrcode, url_status)` verifies,
`start` returns the parsed response mapping unchanged; and when the
recomputed digest of the (possibly altered) response differs from its `sign`
field, `start` raises `InvalidSignature` — the digest-difference caveat being
forced by the collision counterexample. -/
theorem C4_start_contract (key : String)
    (a desc us cs mid oid uf cf : PyVal) (ns : Option String)
    (reply : ServerReply) (a' : String)
    (hna : normalizeAmount a = .ok a') :
    (∃ p, buildSignedParams key startSignFields
        (startKwargs (.pstr a') desc us cs mid oid uf cf (nonceVal ns)) =
        .ok p ∧
      dictLookup p "sign" = some (.pstr (spec_signature key
        [a', pyStr desc, pyStr us, pyStr mid] ns))) ∧
    (∀ (v : PyVal) (d : PyDict),
      200 ≤ reply.statusCode → reply.statusCode < 400 →
      reply.json = .ok v → asDict v = .ok d →
      (verifySignature key d startVerifyFields = .ok () →
        start key a desc us cs mid oid uf cf (nonceVal ns) reply = .ok v) ∧
      (∀ (vals' : List String) (nonce' : Option String) (sg : String),
        lookupStrs d startVerifyFields = .ok vals' →
        dictLookup d "nonce" = Option.map PyVal.pstr nonce' →
        dictLookup d "sign" = some (.pstr sg) →
        pyEqStr (hmacHex key (String.join vals' ++ nonce'.getD ""))
          (.pstr sg) = false →
        start key a desc us cs mid oid uf cf (nonceVal ns) reply =
          .error (.invalidSignature (.pstr sg)))) := by
  have hn : dictLookup (startKwargs (.pstr a') desc us cs mid oid uf cf
      (nonceVal ns)) "nonce" = Option.map PyVal.pstr ns ∨
      (dictLookup (startKwargs (.pstr a') desc us cs mid oid uf cf
        (nonceVal ns)) "nonce" = some .pnone ∧ ns = none) := by
    cases ns with
    | none => exact Or.inr ⟨rfl, rfl⟩
    | some s => exact Or.inl rfl
  have hbp := buildSignedParams_eq key startSignFields
    (startKwargs (.pstr a') desc us cs mid oid uf cf (nonceVal ns))
    [a', pyStr desc, pyStr us, pyStr mid] ns (by simp [startSignFields])
    rfl hn
  constructor
  · exact ⟨_, hbp, dictLookup_set_self _ _ _⟩
  · intro v d h1 h2 hjson hd
    constructor
    · intro hver
      rw [start_json_eq key a desc us cs mid oid uf cf (nonceVal ns) reply
        a' v d hna ⟨_, hbp⟩ h1 h2 hjson hd, hver]
    · intro vals' nonce' sg hv' hn' hs' hne
      rw [start_json_eq key a desc us cs mid oid uf cf (nonceVal ns) reply
        a' v d hna ⟨_, hbp⟩ h1 h2 hjson hd,
        verify_fail key d startVerifyFields vals' nonce' _ hv' hn' hs' hne]

theorem C4_start_contract_witness :
    (∃ p, buildSignedParams "k" startSignFields
        (startKwargs (.pstr "10.00") (.pstr "D") (.pstr "u") (.pstr "c")
          (.pint 1) .pnone .pnone .pnone (nonceVal none)) = .ok p ∧
      dictLookup p "sign" = some (.pstr (spec_signature "k"
        ["10.00", "D", "u", "1"] none))) ∧
    start "k" (.pstr "10.00") (.pstr "D") (.pstr "u") (.pstr "c") (.pint 1)
      .pnone .pnone .pnone (nonceVal none)
      { statusCode := 200, reason := "OK", text := "",
        json := .ok (.pdict
          [("url_pay", .pstr "p"), ("btc_address", .pstr "b"),
           ("url_qrcode", .pstr "q"), ("url_status", .pstr "s"),
           ("sign", .pstr (spec_signature "k" ["p", "b", "q", "s"] none))]) } =
      .ok (.pdict
        [("url_pay", .pstr "p"), ("btc_address", .pstr "b"),
         ("url_qrcode", .pstr "q"), ("url_status", .pstr "s"),
         ("sign", .pstr (spec_signature "k" ["p", "b", "q", "s"] none))]) ∧
    start "k" (.pstr "10.00") (.pstr "D") (.pstr "u") (.pstr "c") (.pint 1)
      .pnone .pnone .pnone (nonceVal none)
      { statusCode := 200, reason := "OK", text := "",
        json := .ok (.pdict
          [("url_pay", .pstr "p"), ("btc_address", .pstr "b"),
           ("url_qrcode", .pstr "q"), ("url_status", .pstr "altered"),
           ("sign", .pstr "zz")]) } =
      .error (.invalidSignature (.pstr "zz")) :=
  ⟨(C4_start_contract "k" (.pstr "10.00") (.pstr "D") (.pstr "u") (.pstr "c")
      (.pint 1) .pnone .pnone .pnone none
      { statusCode := 200, reason := "OK", text := "", json := .ok .pnone }
      "10.00" rfl).1,
   ((C4_start_contract "k" (.pstr "10.00") (.pstr "D") (.pstr "u") (.pstr "c")
      (.pint 1) .pnone .pnone .pnone none
      { statusCode := 200, reason := "OK", text := "",
        json := .ok (.pdict
          [("url_pay", .pstr "p"), ("btc_address", .pstr "b"),
           ("url_qrcode", .pstr "q"), ("url_status", .pstr "s"),
           ("sign", .pstr (spec_signature "k" ["p", "b", "q", "s"] none))]) }
      "10.00" rfl).2 _ _ (by norm_num) (by norm_num) rfl rfl).1
      (verify_ok "k" _ startVerifyFields ["p", "b", "q", "s"] none
        rfl rfl rfl),
   ((C4_start_contract "k" (.pstr "10.00") (.pstr "D") (.pstr "u") (.pstr "c")
      (.pint 1) .pnone .pnone .pnone none
      { statusCode := 200, reason := "OK", text := "",
        json := .ok (.pdict
          [("url_pay", .pstr "p"), ("btc_address", .pstr "b"),
           ("url_qrcode", .pstr "q"), ("url_status", .pstr "altered"),
           ("sign", .pstr "zz")]) }
      "10.00" rfl).2 _ _ (by norm_num) (by norm_num) rfl rfl).2
      ["p", "b", "q", "altered"] none "zz" rfl rfl rfl (by decide)⟩

/-- C6: for the call helper and each of the three operations, a `ServerError`
carrying the numeric status code, the reason phrase and the raw body is
raised exactly when the response status lies outside `[200, 400)`; inside
that interval no `ServerError` is raised and the body is JSON-decoded
(`_call` returns `json.loads` of the body). -/
theorem C6_server_error_mapping :
    (∀ (key path method : String) (sf : List String) (kw p : PyDict)
        (reply : ServerReply),
      buildSignedParams key sf kw = .ok p →
      ((reply.statusCode < 200 ∨ 400 ≤ reply.statusCode) →
        pspCall key path method sf kw reply =
          .error (.serverError reply.statusCode reply.reason reply.text)) ∧
      (200 ≤ reply.statusCode → reply.statusCode < 400 →
        pspCall key path method sf kw reply =
          reply.json.mapError PyError.valueError)) ∧
    (∀ (key : String) (a desc us cs mid oid uf cf nonce : PyVal)
        (reply : ServerReply) (a' : String),
      normalizeAmount a = .ok a' →
      (∃ p, buildSignedParams key startSignFields
        (startKwargs (.pstr a') desc us cs mid oid uf cf nonce) = .ok p) →
      ((reply.statusCode < 200 ∨ 400 ≤ reply.statusCode) →
        start key a desc us cs mid oid uf cf nonce reply =
          .error (.serverError reply.statusCode reply.reason reply.text)) ∧
      (200 ≤ reply.statusCode → reply.statusCode < 400 →
        ∀ c r b, start key a desc us cs mid oid uf cf nonce reply ≠
          .error (.serverError c r b))) ∧
    (∀ (key : String) (a : PyVal) (dec : Int) (reply : ServerReply)
        (a' : String),
      normalizeAmount a = .ok a' → ¬ dec < 0 →
      ((reply.statusCode < 200 ∨ 400 ≤ reply.statusCode) →
        price_btc key a dec reply =
          .error (.serverError reply.statusCode reply.reason reply.text)) ∧
      (200 ≤ reply.statusCode → reply.statusCode < 400 →
        ∀ c r b, price_btc key a dec reply ≠
          .error (.serverError c r b))) ∧
    (∀ (key : String) (tx nonce : PyVal) (reply : ServerReply),
      ((reply.statusCode < 200 ∨ 400 ≤ reply.statusCode) →
        transaction_status key tx nonce reply =
          .error (.serverError reply.statusCode reply.reason reply.text)) ∧
      (200 ≤ reply.statusCode → reply.statusCode < 400 →
        ∀ c r b, transaction_status key tx nonce reply ≠
          .error (.serverError c r b))) := by
  refine ⟨?_, ?_, ?_, ?_⟩
  · intro key path method sf kw p reply hbp
    exact ⟨fun hout => pspCall_out_of_range key path method sf kw p reply
        hbp hout,
      fun h1 h2 => pspCall_in_range key path method sf kw p reply hbp h1 h2⟩
  · intro key a desc us cs mid oid uf cf nonce reply a' hna hbp
    refine ⟨fun hout => start_server_error key a desc us cs mid oid uf cf
      nonce reply a' hna hbp hout, ?_⟩
    intro h1 h2 c r b heq
    rcases start_error_shape key a desc us cs mid oid uf cf nonce reply a'
        _ hna hbp h1 h2 heq with ⟨m, hm⟩ | ht | ⟨g, hg⟩ | ⟨v, hv⟩ <;>
      simp_all
  · intro key a dec reply a' hna hdec
    refine ⟨fun hout => price_btc_server_error key a dec reply a' hna hdec
      hout, ?_⟩
    intro h1 h2 c r b heq
    rcases price_btc_error_shape key a dec reply a' _ hna h1 h2 heq with
      ⟨m, hm⟩ | ht | ht <;> simp_all
  · intro key tx nonce reply
    refine ⟨fun hout => transaction_status_server_error key tx nonce reply
      hout, ?_⟩
    intro h1 h2 c r b heq
    rcases transaction_status_error_shape key tx nonce reply _ h1 h2 heq with
      ⟨m, hm⟩ | ht | ⟨g, hg⟩ | ⟨v, hv⟩ | ht <;> simp_all

theorem C6_server_error_mapping_witness :
    pspCall "k" "/price_btc/" "GET" [] []
      { statusCode := 500, reason := "ISE", text := "body",
        json := .error "boom" } = .error (.serverError 500 "ISE" "body") ∧
    pspCall "k" "/price_btc/" "GET" [] []
      { statusCode := 200, reason := "OK", text := "notjson",
        json := .error "boom" } =
      (Except.error "boom" : Except String PyVal).mapError
        PyError.valueError ∧
    start "k" (.pstr "1") .pnone .pnone .pnone .pnone .pnone .pnone .pnone
      .pnone
      { statusCode := 500, reason := "ISE", text := "body",
        json := .error "boom" } =
      .error (.serverError 500 "ISE" "body") ∧
    start "k" (.pstr "1") .pnone .pnone .pnone .pnone .pnone .pnone .pnone
      .pnone
      { statusCode := 200, reason := "OK", text := "notjson",
        json := .error "boom" } ≠ .error (.serverError 1 "a" "b") ∧
    price_btc "k" (.pstr "1") 5
      { statusCode := 500, reason := "ISE", text := "body",
        json := .error "boom" } = .error (.serverError 500 "ISE" "body") ∧
    price_btc "k" (.pstr "1") 5
      { statusCode := 200, reason := "OK", text := "notjson",
        json := .error "boom" } ≠ .error (.serverError 1 "a" "b") ∧
    transaction_status "k" (.pstr "t") .pnone
      { statusCode := 500, reason := "ISE", text := "body",
        json := .error "boom" } = .error (.serverError 500 "ISE" "body") ∧
    transaction_status "k" (.pstr "t") .pnone
      { statusCode := 200, reason := "OK", text := "notjson",
        json := .error "boom" } ≠ .error (.serverError 1 "a" "b") :=
  ⟨(C6_server_error_mapping.1 "k" "/price_btc/" "GET" [] [] [] _ rfl).1
      (by norm_num),
   (C6_server_error_mapping.1 "k" "/price_btc/" "GET" [] [] [] _ rfl).2
      (by norm_num) (by norm_num),
   (C6_server_error_mapping.2.1 "k" (.pstr "1") .pnone .pnone .pnone .pnone
      .pnone .pnone .pnone .pnone _ "1" rfl ⟨_, rfl⟩).1 (by norm_num),
   (C6_server_error_mapping.2.1 "k" (.pstr "1") .pnone .pnone .pnone .pnone
      .pnone .pnone .pnone .pnone _ "1" rfl ⟨_, rfl⟩).2 (by norm_num)
      (by norm_num) 1 "a" "b",
   (C6_server_error_mapping.2.2.1 "k" (.pstr "1") 5 _ "1" rfl
      (by norm_num)).1 (by norm_num),
   (C6_server_error_mapping.2.2.1 "k" (.pstr "1") 5 _ "1" rfl
      (by norm_num)).2 (by norm_num) (by norm_num) 1 "a" "b",
   (C6_server_error_mapping.2.2.2 "k" (.pstr "t") .pnone _).1 (by norm_num),
   (C6_server_error_mapping.2.2.2 "k" (.pstr "t") .pnone _).2 (by norm_num)
      (by norm_num) 1 "a" "b"⟩

/-- C7: `price_btc` validates before any network call — an amount failing the
decimal pattern, or a negative `decimals`, raises the validation `ValueError`
whatever the server would have replied (the result does not depend on the
reply at all) — and on a valid amount with body `"1.10000"` it returns that
decimal, never performing signature verification (no `InvalidSignature` can
ever escape it). -/
theorem C7_price_btc_validation :
    (∀ (key : String) (a : PyVal) (dec : Int) (reply : ServerReply),
      pyAmountMatch (pyStr a) = false →
      price_btc key a dec reply = .error (.valueError
        ("could not parse amount " ++ pyRepr (pyStr a) ++
          ", must be a positive decimal"))) ∧
    (∀ (key : String) (a : PyVal) (dec : Int) (reply : ServerReply)
        (a' : String),
      normalizeAmount a = .ok a' → dec < 0 →
      price_btc key a dec reply =
        .error (.valueError "decimals must be a positive integer")) ∧
    (∀ (key : String) (a : PyVal) (dec : Int) (reply : ServerReply)
        (a' : String),
      normalizeAmount a = .ok a' → ¬ dec < 0 →
      200 ≤ reply.statusCode → reply.statusCode < 400 →
      reply.json = .ok (.pstr "1.10000") →
      price_btc key a dec reply = .ok (.pdec "1.10000")) ∧
    (∀ (key : String) (a : PyVal) (dec : Int) (reply : ServerReply)
        (v : PyVal),
      price_btc key a dec reply ≠ .error (.invalidSignature v)) := by
  refine ⟨?_, ?_, ?_, ?_⟩
  · intro key a dec reply h
    exact price_btc_invalid_amount key a dec reply h
  · intro key a dec reply a' hna hdec
    exact price_btc_neg_decimals key a dec reply a' hna hdec
  · intro key a dec reply a' hna hdec h1 h2 hjson
    exact price_btc_success key a dec reply a' (.pstr "1.10000") "1.10000"
      hna hdec h1 h2 hjson rfl
  · intro key a dec reply v
    exact price_btc_no_invalidSignature key a dec reply v

theorem C7_price_btc_validation_witness :
    price_btc "k" (.pstr "1,0") 5
      { statusCode := 200, reason := "OK", text := "\"1.10000\"",
        json := .ok (.pstr "1.10000") } = .error (.valueError
        ("could not parse amount " ++ pyRepr "1,0" ++
          ", must be a positive decimal")) ∧
    price_btc "k" (.pstr "-1.0") 5
      { statusCode := 200, reason := "OK", text := "\"1.10000\"",
        json := .ok (.pstr "1.10000") } = .error (.valueError
        ("could not parse amount " ++ pyRepr "-1.0" ++
          ", must be a positive decimal")) ∧
    price_btc "k" (.pstr "500") (-1)
      { statusCode := 200, reason := "OK", text := "\"1.10000\"",
        json := .ok (.pstr "1.10000") } =
      .error (.valueError "decimals must be a positive integer") ∧
    price_btc "k" (.pstr "500") 5
      { statusCode := 200, reason := "OK", text := "\"1.10000\"",
        json := .ok (.pstr "1.10000") } = .ok (.pdec "1.10000") ∧
    price_btc "k" (.pstr "500.1") 5
      { statusCode := 200, reason := "OK", text := "\"1.10000\"",
        json := .ok (.pstr "1.10000") } = .ok (.pdec "1.10000") ∧
    price_btc "k" (.pstr "500") 5
      { statusCode := 200, reason := "OK", text := "\"1.10000\"",
        json := .ok (.pstr "1.10000") } ≠
      .error (.invalidSignature (.pstr "zz")) :=
  ⟨C7_price_btc_validation.1 "k" (.pstr "1,0") 5 _ (by decide),
   C7_price_btc_validation.1 "k" (.pstr "-1.0") 5 _ (by decide),
   C7_price_btc_validation.2.1 "k" (.pstr "500") (-1) _ "500" rfl
      (by norm_num),
   C7_price_btc_validation.2.2.1 "k" (.pstr "500") 5 _ "500" rfl
      (by norm_num) (by norm_num) (by norm_num) rfl,
   C7_price_btc_validation.2.2.1 "k" (.pstr "500.1") 5 _ "500.1" rfl
      (by norm_num) (by norm_num) (by norm_num) rfl,
   C7_price_btc_validation.2.2.2 "k" (.pstr "500") 5 _ (.pstr "zz")⟩

/-- C8 counterexample: a successfully verified transaction-status response
whose `amount_btc` is not a decimal literal makes `transaction_status` raise
`InvalidOperation` from the `Decimal` constructor instead of returning the
claimed mapping — so the claim needs a decimal-parsability proviso. -/
theorem C8_counterexample :
    transaction_status "k" (.pstr "t") .pnone
      { statusCode := 200, reason := "OK", text := "",
        json := .ok (.pdict
          [("status", .pstr "S"), ("amount_btc", .pstr "x"),
           ("amount_received", .pstr "1"), ("txid", .pstr "t"),
           ("sign", .pstr (spec_signature "k" ["S", "x", "1", "t"] none))]) }
      = .error .invalidOperation :=
  transaction_status_decimal_fail "k" (.pstr "t") .pnone _ _ _
    (.pstr "S") (.pstr "x") .invalidOperation
    (by norm_num) (by norm_num) rfl rfl
    (verify_ok "k" _ txVerifyFields ["S", "x", "1", "t"] none rfl rfl rfl)
    rfl rfl rfl

/-- C8 amended: for every transaction-status response that verifies and whose
amount fields are valid decimal literals, `transaction_status` returns a
mapping with exactly the keys `status`, `amount_btc`, `amount_received`,
`txid`, `sign`, the amounts as the decimals parsed from the response strings
and the rest unchanged (unparsable amounts instead raise `InvalidOperation`,
as the counterexample shows); on signature mismatch it raises
`InvalidSignature` carrying the received signature value. -/
theorem C8_transaction_status_result (key : String) (tx nonce : PyVal)
    (reply : ServerReply) (v : PyVal) (d : PyDict)
    (h1 : 200 ≤ reply.statusCode) (h2 : reply.statusCode < 400)
    (hjson : reply.json = .ok v) (hd : asDict v = .ok d) :
    (∀ (st ab ar tx2 sg : PyVal) (abd ard : String),
      verifySignature key d txVerifyFields = .ok () →
      dictLookup d "status" = some st →
      dictLookup d "amount_btc" = some ab → pyDecimal ab = .ok abd →
      dictLookup d "amount_received" = some ar → pyDecimal ar = .ok ard →
      dictLookup d "txid" = some tx2 → dictLookup d "sign" = some sg →
      transaction_status key tx nonce reply = .ok (.pdict
        [("status", st), ("amount_btc", .pdec abd),
         ("amount_received", .pdec ard), ("txid", tx2), ("sign", sg)])) ∧
    (∀ (vals' : List String) (nonce' : Option String) (sg : String),
      lookupStrs d txVerifyFields = .ok vals' →
      dictLookup d "nonce" = Option.map PyVal.pstr nonce' →
      dictLookup d "sign" = some (.pstr sg) →
      pyEqStr (hmacHex key (String.join vals' ++ nonce'.getD ""))
        (.pstr sg) = false →
      transaction_status key tx nonce reply =
        .error (.invalidSignature (.pstr sg))) := by
  constructor
  · intro st ab ar tx2 sg abd ard hver hst hab habd har hard htx hsg
    exact transaction_status_success key tx nonce reply v d st ab ar tx2 sg
      abd ard h1 h2 hjson hd hver hst hab habd har hard htx hsg
  · intro vals' nonce' sg hv' hn' hs' hne
    exact transaction_status_verify_fail key tx nonce reply v d _ h1 h2
      hjson hd (verify_fail key d txVerifyFields vals' nonce' _ hv' hn'
        hs' hne)

theorem C8_transaction_status_result_witness :
    transaction_status "k" (.pstr "123456") .pnone
      { statusCode := 200, reason := "OK", text := "",
        json := .ok (.pdict txOkData) } =
      .ok (.pdict
        [("status", .pstr "SUCCESS"), ("amount_btc", .pdec "0.1"),
         ("amount_received", .pdec "0.1"), ("txid", .pstr "123456"),
         ("sign", .pstr
           (spec_signature "k" ["SUCCESS", "0.1", "0.1", "123456"]
             none))]) ∧
    transaction_status "k" (.pstr "123456") .pnone
      { statusCode := 200, reason := "OK", text := "",
        json := .ok (.pdict txBadSignData) } =
      .error (.invalidSignature (.pstr "zz")) :=
  ⟨(C8_transaction_status_result "k" (.pstr "123456") .pnone
      { statusCode := 200, reason := "OK", text := "",
        json := .ok (.pdict txOkData) }
      (.pdict txOkData) txOkData
      (by norm_num) (by norm_num) rfl rfl).1 (.pstr "SUCCESS")
      (.pstr "0.1") (.pstr "0.1") (.pstr "123456")
      (.pstr (spec_signature "k" ["SUCCESS", "0.1", "0.1", "123456"] none))
      "0.1" "0.1"
      (verify_ok "k" txOkData txVerifyFields
        ["SUCCESS", "0.1", "0.1", "123456"] none rfl rfl rfl)
      rfl rfl rfl rfl rfl rfl rfl,
   (C8_transaction_status_result "k" (.pstr "123456") .pnone
      { statusCode := 200, reason := "OK", text := "",
        json := .ok (.pdict txBadSignData) }
      (.pdict txBadSignData) txBadSignData
      (by norm_num) (by norm_num) rfl rfl).2
      ["SUCCESS", "0.1", "0.1", "123456"] none "zz" rfl rfl rfl
      (by decide)⟩

/-- C2 (code bug): the caller-supplied nonce is ignored by
`transaction_status`.  The source stores it in `sigdata` and then verifies
`data` instead, so a response signed per the protocol over
`(status, amount_btc, amount_received, txid)` with the caller's nonce
`"abc"` folded in — exactly what the claim says is compared — is rejected
with `InvalidSignature`: the code recomputes the digest with the empty
string in place of the supplied nonce. -/
theorem C2_nonce_ignored_failing_input :
    transaction_status "k" (.pstr "t") (.pstr "abc")
      { statusCode := 200, reason := "OK", text := "",
        json := .ok (.pdict nonceMismatchData) } =
      .error (.invalidSignature
        (.pstr (spec_signature "k" ["S", "1", "1", "t"] (some "abc")))) :=
  transaction_status_verify_fail "k" (.pstr "t") (.pstr "abc")
    { statusCode := 200, reason := "OK", text := "",
      json := .ok (.pdict nonceMismatchData) }
    (.pdict nonceMismatchData) nonceMismatchData
    (.invalidSignature
      (.pstr (spec_signature "k" ["S", "1", "1", "t"] (some "abc"))))
    (by norm_num) (by norm_num) rfl rfl
    (verify_fail "k" nonceMismatchData txVerifyFields ["S", "1", "1", "t"]
      none (.pstr (spec_signature "k" ["S", "1", "1", "t"] (some "abc")))
      rfl rfl rfl (by decide))

end BitmmPsp
